import Mathlib

/-!
Shallow embedding of the trelliq-python report engine
(`src/src/config.py`, `src/src/data_processor.py`).

Modelling conventions, fixed once for the whole development:

* Python `datetime.date` values are calendar days counted as integers
  (`Int`); `date.today()` becomes an explicit `today : Int` parameter.
* A Trello timestamp string (`due`, `dateLastActivity`) either parses to a
  calendar day or raises `ValueError`/`TypeError`; we embed the parse
  outcome as `Timestamp.valid day` or `Timestamp.malformed`.  An absent or
  empty (falsy) field is `Option.none`.
* Python `str.upper()` uppercases ASCII letters here (`pyUpper`); all list
  names occurring in the configuration tables are already uppercase, so
  this agrees with CPython on every string the engine compares against its
  tables.  `str.strip()` is `pyStrip`, `in` on strings is `strContains`,
  `split(',')` is `pySplitComma`, `', '.join` is `String.intercalate`.
* Python `float` arithmetic (`completion_rate`, `average_days_late`) is
  embedded as exact unnormalised fractions `PyRat` (numerator and
  denominator kept as produced by the code), with Python `round`'s
  round-half-to-even as `pyRound`.
* Python `set` iteration order (the `grupos_encontrados` set) is
  unspecified by CPython; it is modelled as first-insertion order
  (`dedupKeepFirst`).  No claim depends on the order.
* Python `dict` preserves insertion order; dict-based deduplication
  (`unique_tasks_map`) is `dedupByKey`, keeping the first row per key, and
  the collaborator map is an insertion-ordered association list.
-/

/-- ASCII uppercasing, the effect of CPython `str.upper()` on the strings
this engine compares against its (already uppercase) configuration. -/
def pyUpper (s : String) : String := ⟨s.data.map Char.toUpper⟩

def isPyWS (c : Char) : Bool := c == ' ' || c == '\t' || c == '\n' || c == '\r'

/-- Python `str.strip()`. -/
def pyStrip (s : String) : String :=
  ⟨((s.data.dropWhile isPyWS).reverse.dropWhile isPyWS).reverse⟩

def infixOfAux (needle : List Char) : List Char → Bool
  | [] => needle.isEmpty
  | c :: cs => needle.isPrefixOf (c :: cs) || infixOfAux needle cs

/-- Python `needle in hay` on strings: substring containment. -/
def strContains (hay needle : String) : Bool := infixOfAux needle.data hay.data

def splitCommaAux : List Char → List Char → List (List Char)
  | [], acc => [acc.reverse]
  | c :: cs, acc =>
      if c == ',' then acc.reverse :: splitCommaAux cs []
      else splitCommaAux cs (c :: acc)

/-- Python `s.split(',')`. -/
def pySplitComma (s : String) : List String := (splitCommaAux s.data []).map (fun cs => ⟨cs⟩)

/-- Python code-point comparison `a <= b` on strings. -/
def charListLe : List Char → List Char → Bool
  | [], _ => true
  | _ :: _, [] => false
  | a :: as, b :: bs =>
      if a.toNat < b.toNat then true
      else if b.toNat < a.toNat then false
      else charListLe as bs

def pyStrLe (a b : String) : Bool := charListLe a.data b.data

/-- An exact fraction standing in for a Python `float` quotient; the code
only ever divides by a positive count, and never normalises. -/
structure PyRat where
  num : Int
  den : Int
  deriving DecidableEq, Repr

/-- `a <= b` on the quotients, valid for the positive denominators the
engine produces. -/
def PyRat.le (a b : PyRat) : Bool := decide (a.num * b.den ≤ b.num * a.den)

/-- Python `round` (banker's rounding, half to even) of `num/den`, `den > 0`. -/
def pyRound (r : PyRat) : Int :=
  let f := Int.fdiv r.num r.den
  let rem := r.num - f * r.den
  if 2 * rem < r.den then f
  else if r.den < 2 * rem then f + 1
  else if f % 2 = 0 then f else f + 1

/-- The outcome of parsing one Trello ISO timestamp string: either a
calendar day or a `ValueError`/`TypeError` on parse. -/
inductive Timestamp where
  | valid (day : Int)
  | malformed
  deriving DecidableEq, Repr

/-- `datetime.fromisoformat(...).date()` wrapped in the code's
`try/except`: `some day` on success, `none` on a malformed string. -/
def parseTS : Timestamp → Option Int
  | .valid d => some d
  | .malformed => none

/-! ## Data model (the Trello snapshot, `# 3. DATA MODEL`) -/

structure TrelloList where
  id : String
  name : String
  deriving DecidableEq, Repr

structure Member where
  id : String
  username : String
  fullName : String
  deriving DecidableEq, Repr

structure Card where
  id : String
  name : String
  idList : Option String
  idMembers : List String
  due : Option Timestamp
  dateLastActivity : Option Timestamp
  closed : Bool
  desc : String
  deriving DecidableEq, Repr

structure TrelloData where
  name : String
  cards : List Card
  lists : List TrelloList
  members : List Member
  deriving DecidableEq, Repr

/-! ## `src/src/config.py` -/

structure Responsavel where
  username : String
  nome : String
  deriving DecidableEq, Repr

structure GrupoMarketing where
  name : String
  responsaveis : List Responsavel
  etapas_abertura : List String
  etapas_finalizacao : List String
  etapa_feito : List String
  color : String
  deriving DecidableEq, Repr

def CONTENT_CREATORS : List String := ["leonardoferreiracardoso5", "jamillyfreitass"]

def GRUPOS_MARKETING : List GrupoMarketing :=
  [ { name := "Grupo 1"
    , responsaveis := [ { username := "jamillyfreitass", nome := "Jamily" }
                      , { username := "leonardoferreiracardoso5", nome := "Leo" } ]
    , etapas_abertura := ["EM PROCESSO DE CONTEÚDO"]
    , etapas_finalizacao := ["EM PROCESSO DE MONTAGEM", "EM PROCESSO DE ENVIO"]
    , etapa_feito := ["FEITOS", "FEITO"]
    , color := "#4F8EF7" }
  , { name := "Grupo 2"
    , responsaveis := [ { username := "fazstudioart", nome := "Luiz" }
                      , { username := "miguelluis30", nome := "Miguel" } ]
    , etapas_abertura := ["PROCESSO DE CRIAÇÃO"]
    , etapas_finalizacao := ["EM PROCESSO DE MONTAGEM", "EM PROCESSO DE ENVIO"]
    , etapa_feito := ["FEITOS", "FEITO"]
    , color := "#00B894" }
  , { name := "Grupo 3"
    , responsaveis := [ { username := "samuelpiske1", nome := "Samuel" } ]
    , etapas_abertura := ["PROCESSO DE GRAVAÇÃO", "EDIÇÃO"]
    , etapas_finalizacao := ["EM PROCESSO DE MONTAGEM", "EM PROCESSO DE ENVIO"]
    , etapa_feito := ["FEITOS", "FEITO"]
    , color := "#FDCB6E" }
  , { name := "Grupo 4"
    , responsaveis := [ { username := "flaviasilva", nome := "Flávia" }
                      , { username := "coordenacao", nome := "Coordenação" } ]
    , etapas_abertura := ["EM PROCESSO DE QUALIDADE", "EM PROCESSO DE EDIÇÃO E REVISÃO"]
    , etapas_finalizacao := ["EM PROCESSO DE MONTAGEM", "EM PROCESSO DE ENVIO"]
    , etapa_feito := ["FEITOS", "FEITO"]
    , color := "#E17055" } ]

def LIST_STATUS_MAP : List (String × String) :=
  [ ("PLANEJANDO ESTRATÉGIAS", "Planejamento")
  , ("ATIVIDADES RECORRENTES", "Recorrente")
  , ("EM PROCESSO DE CONTEÚDO", "Em Andamento")
  , ("EM PROCESSO DE QUALIDADE", "Em Andamento")
  , ("EM PROCESSO DE EDIÇÃO E REVISÃO", "Em Andamento")
  , ("EM PROCESSO DE MONTAGEM", "Em Andamento")
  , ("EM PROCESSO DE REVISÃO", "Em Andamento")
  , ("AGUARDANDO RETORNO DE CORREÇÕES", "Bloqueada")
  , ("EM PROCESSO DE ENVIO", "Em Andamento")
  , ("FEITO", "Concluída")
  , ("FEITOS", "Concluída") ]

/-- `LIST_STATUS_MAP.get(list_name_upper)`. -/
def listStatusLookup (k : String) : Option String :=
  (LIST_STATUS_MAP.find? (fun p => p.1 == k)).map (·.2)

/-- `get_grupo_por_responsavel`: first group with a responsável of this
username, scanning groups in registry order. -/
def get_grupo_por_responsavel (username : String) : Option GrupoMarketing :=
  GRUPOS_MARKETING.find? (fun grupo => grupo.responsaveis.any (fun r => r.username == username))

/-- `get_etapa_atual`: the list name uppercased. -/
def get_etapa_atual (list_name : String) : String := pyUpper list_name

/-- `is_finalizada_para_flavia`. -/
def is_finalizada_para_flavia (list_name : String) (grupo : Option GrupoMarketing) : Bool :=
  match grupo with
  | none => false
  | some g => g.etapas_finalizacao.any (fun etapa_fin => strContains (get_etapa_atual list_name) etapa_fin)

/-- `is_feita`. -/
def is_feita (list_name : String) (grupo : Option GrupoMarketing) : Bool :=
  match grupo with
  | none => false
  | some g => g.etapa_feito.any (fun etapa_feito => strContains (get_etapa_atual list_name) etapa_feito)

/-- `is_em_revisao`. -/
def is_em_revisao (list_name : String) : Bool :=
  strContains (get_etapa_atual list_name) "REVISÃO"

/-! ## `src/src/data_processor.py`: output dataclasses -/

structure TaskReport where
  task_id : String
  collaborator_name : String
  task_name : String
  list_name : String
  due_date : String
  created_at : Option Timestamp
  completed_at : Option (Option Timestamp)
  status : String
  days_late : Int
  observations : String
  grupo : Option String
  etapa_atual : Option String
  finalizada_para_flavia : Bool
  feita : Bool
  em_revisao : Bool
  deriving DecidableEq, Repr, Inhabited

structure CollaboratorReport where
  collaborator_name : String
  total_tasks : Nat
  completed_tasks : Nat
  in_progress_tasks : Nat
  pending_tasks : Nat
  late_tasks : Nat
  blocked_tasks : Nat
  completion_rate : PyRat
  average_days_late : Int
  tasks : List TaskReport
  deriving DecidableEq, Repr

structure GroupReportSummary where
  grupo : String
  responsaveis : List String
  total_tasks : Nat
  completed_tasks : Nat
  in_progress_tasks : Nat
  late_tasks : Nat
  blocked_tasks : Nat
  on_time_deliveries : Nat
  late_deliveries : Nat
  deriving DecidableEq, Repr

structure ReportSummary where
  total_tasks : Nat
  completed_tasks : Nat
  in_progress_tasks : Nat
  late_tasks : Nat
  overdue_tasks : Nat
  blocked_tasks : Nat
  total_collaborators : Nat
  group_summaries : List GroupReportSummary
  deriving DecidableEq, Repr

/-! ## `validate_trello_data`

The raw upload is an arbitrary JSON value; validation only inspects its
top-level shape. -/

inductive JVal where
  | str (s : String)
  | arr (elems : List JVal)
  | dict (fields : List (String × JVal))
  | other
  deriving Repr

def JVal.isArr : JVal → Bool
  | .arr _ => true
  | _ => false

def JVal.isStr : JVal → Bool
  | .str _ => true
  | _ => false

/-- Python `data.get(k)` on a JSON object. -/
def jLookup (fs : List (String × JVal)) (k : String) : Option JVal :=
  (fs.find? (fun p => p.1 == k)).map (·.2)

def msgNotObj : String := "Dados devem ser um objeto JSON válido"

def msgMissing (field : String) : String :=
  "Campo obrigatório '" ++ field ++ "' não encontrado"

def msgNotList (field : String) : String :=
  "Campo '" ++ field ++ "' deve ser uma lista"

def msgNameNotStr : String := "Campo 'name' deve ser uma string"

/-- One pass of the `for field in required_fields` loop: the error strings
this field contributes, in emission order. -/
def reqFieldErrs (fs : List (String × JVal)) (field : String) : List String :=
  match jLookup fs field with
  | none => [msgMissing field]
  | some v => if field != "name" && !v.isArr then [msgNotList field] else []

/-- The trailing `isinstance(data.get('name'), str)` check: its error
strings. -/
def nameTypeErrs (fs : List (String × JVal)) : List String :=
  match jLookup fs "name" with
  | some (.str _) => []
  | _ => [msgNameNotStr]

/-- `validate_trello_data` (`data_processor.py:88`): the `(is_valid,
errors)` pair.  The loop over `required_fields` is rendered as a `flatMap`
over the same literal list, preserving emission order, followed by the
separate `name`-must-be-a-string check. -/
def validate_trello_data (data : JVal) : Bool × List String :=
  match data with
  | .dict fs =>
      let errors :=
        (["cards", "lists", "members", "name"].flatMap (reqFieldErrs fs)) ++ nameTypeErrs fs
      (errors.isEmpty, errors)
  | _ => (false, [msgNotObj])

/-! ## Window filter (`filter_cards_by_date_range`) -/

def completed_keywords : List String :=
  ["FEITO", "FEITOS", "CONCLUÍ", "FINALIZADO", "COMPLETO", "DONE", "FINISHED"]

/-- `any(keyword in list_name_upper for keyword in completed_keywords)`,
on an already uppercased-and-stripped name. -/
def containsDoneKeyword (list_name_upper : String) : Bool :=
  completed_keywords.any (fun keyword => strContains list_name_upper keyword)

/-- A list counts as a "done" list when its uppercased, stripped name
contains a completion keyword. -/
def isCompletedListName (name : String) : Bool :=
  containsDoneKeyword (pyStrip (pyUpper name))

/-- The `completed_list_ids` set. -/
def completedListIds (lists : List TrelloList) : List String :=
  (lists.filter (fun lista => isCompletedListName lista.name)).map (·.id)

/-- The per-card body of the `filter_cards_by_date_range` loop: `true` when
the card is appended to `filtered_cards`. -/
def windowPred (completed_ids : List String) (start_date end_date : Int) (card : Card) : Bool :=
  if card.closed then false
  else
    let is_in_completed_list :=
      match card.idList with
      | some list_id => completed_ids.contains list_id
      | none => false
    if is_in_completed_list then
      match card.due with
      | some ts =>
          match parseTS ts with
          | some due_date => decide (start_date ≤ due_date) && decide (due_date ≤ end_date)
          | none => false
      | none => false
    else
      match card.dateLastActivity with
      | some ts =>
          match parseTS ts with
          | some last_activity => decide (start_date ≤ last_activity) && decide (last_activity ≤ end_date)
          | none => false
      | none => false

/-- `filter_cards_by_date_range` (`data_processor.py:116`). -/
def filter_cards_by_date_range (cards : List Card) (start_date end_date : Int)
    (lists : List TrelloList) : List Card :=
  cards.filter (windowPred (completedListIds lists) start_date end_date)

/-! ## Status and lateness classifiers -/

/-- `next((l for l in lists if l['id'] == card.get('idList')), None)`. -/
def findList (lists : List TrelloList) (card : Card) : Option TrelloList :=
  lists.find? (fun l => card.idList == some l.id)

/-- `_is_overdue`. -/
def is_overdue (card : Card) (today : Int) : Bool :=
  match card.due with
  | none => false
  | some ts =>
      match parseTS ts with
      | some due_date => decide (due_date < today)
      | none => false

/-- The body of `get_task_status` once the card's list is found, operating
on the uppercased, stripped list name. -/
def statusForListName (card : Card) (list_name_upper : String) (today : Int) : String :=
  if containsDoneKeyword list_name_upper then "Concluída"
  else if strContains list_name_upper "AGUARDANDO" && strContains list_name_upper "RETORNO"
          && strContains list_name_upper "TERCEIRO" then "Concluída"
  else
    match listStatusLookup list_name_upper with
    | some direct_status =>
        if direct_status != "Concluída" && card.due.isSome && is_overdue card today
        then "Atrasada" else direct_status
    | none =>
        if ["BLOQUEADA", "PARADA", "AGUARDANDO"].any (fun keyword => strContains list_name_upper keyword)
        then "Bloqueada"
        else if ["PLANEJ", "PLAN"].any (fun keyword => strContains list_name_upper keyword)
        then "Planejamento"
        else if strContains list_name_upper "RECORREN" then "Recorrente"
        else if card.due.isSome && is_overdue card today then "Atrasada"
        else "Em Andamento"

/-- `get_task_status` (`data_processor.py:214`); the unused `members`
argument is kept for signature fidelity. -/
def get_task_status (card : Card) (lists : List TrelloList) (_members : List Member)
    (today : Int) : String :=
  if card.closed then "Concluída"
  else
    match findList lists card with
    | none => "Em Andamento"
    | some list_obj => statusForListName card (pyStrip (pyUpper list_obj.name)) today

/-- `get_task_status_for_collaborator` (`data_processor.py:289`). -/
def get_task_status_for_collaborator (card : Card) (collaborator_username : String)
    (lists : List TrelloList) (today : Int) : String :=
  if card.closed then "Concluída"
  else if !(CONTENT_CREATORS.contains collaborator_username) then
    get_task_status card lists [] today
  else
    match findList lists card with
    | none => "Em Andamento"
    | some list_obj =>
        if pyStrip (pyUpper list_obj.name) == "EM PROCESSO DE CONTEÚDO" then
          if card.due.isSome && is_overdue card today then "Atrasada" else "Em Andamento"
        else "Concluída"

/-- `calculate_days_late` (`data_processor.py:334`). -/
def calculate_days_late (card : Card) (today : Int) : Int :=
  match card.due with
  | none => 0
  | some ts =>
      if card.closed then 0
      else
        match parseTS ts with
        | some due_date => if today ≤ due_date then 0 else today - due_date
        | none => 0

/-- `calculate_days_late_for_collaborator` (`data_processor.py:373`). -/
def calculate_days_late_for_collaborator (card : Card) (collaborator_username : String)
    (lists : List TrelloList) (today : Int) : Int :=
  match card.due with
  | none => 0
  | some _ =>
      if card.closed then 0
      else if CONTENT_CREATORS.contains collaborator_username then
        let list_name_upper :=
          match findList lists card with
          | some list_obj => pyStrip (pyUpper list_obj.name)
          | none => ""
        if list_name_upper != "EM PROCESSO DE CONTEÚDO" then 0
        else calculate_days_late card today
      else calculate_days_late card today

/-- `_format_due_date`: `'Não definida'` for an absent or malformed
timestamp; a parsed day is rendered through an abstract day formatter
(standing for `strftime('%d/%m/%Y')`) that never collides with the
sentinel. -/
def format_due_date (due : Option Timestamp) : String :=
  match due with
  | none => "Não definida"
  | some ts =>
      match parseTS ts with
      | some due_date => toString due_date
      | none => "Não definida"

/-! ## Report row generator (`generate_task_reports`) -/

/-- First-insertion-order rendering of the `grupos_encontrados` Python set. -/
def dedupKeepFirstAux (seen : List String) : List String → List String
  | [] => []
  | x :: xs =>
      if seen.contains x then dedupKeepFirstAux seen xs
      else x :: dedupKeepFirstAux (x :: seen) xs

def dedupKeepFirst (xs : List String) : List String := dedupKeepFirstAux [] xs

/-- The group, if any, of a member of a card. -/
def memberGroupName (m : Member) : Option String :=
  (get_grupo_por_responsavel m.username).map (·.name)

/-- `card_members = [m for m in members if m['id'] in id_members]`. -/
def cardMembers (members : List Member) (card : Card) : List Member :=
  members.filter (fun m => card.idMembers.contains m.id)

/-- `membros_do_grupo`: the card's members whose group is `nome_grupo`. -/
def membersInGroup (members : List Member) (card : Card) (nome_grupo : String) : List Member :=
  (cardMembers members card).filter (fun m => memberGroupName m == some nome_grupo)

/-- The resolved list name with the `'Lista não encontrada'` fallback. -/
def resolvedListName (lists : List TrelloList) (card : Card) : String :=
  match findList lists card with
  | some list_obj => list_obj.name
  | none => "Lista não encontrada"

/-- The shared fields of every `TaskReport` built for `card`. -/
def baseRow (card : Card) (list_name : String)
    (collaborator status : String) (days_late : Int) (grupo : Option GrupoMarketing) : TaskReport :=
  { task_id := card.id
  , collaborator_name := collaborator
  , task_name := card.name
  , list_name := list_name
  , due_date := format_due_date card.due
  , created_at := card.dateLastActivity
  , completed_at := if status == "Concluída" then some card.dateLastActivity else none
  , status := status
  , days_late := days_late
  , observations := if card.desc == "" then list_name else card.desc
  , grupo := grupo.map (·.name)
  , etapa_atual := some (get_etapa_atual list_name)
  , finalizada_para_flavia := is_finalizada_para_flavia list_name grupo
  , feita := is_feita list_name grupo
  , em_revisao := is_em_revisao list_name }

/-- The single row emitted for one `nome_grupo` of `grupos_encontrados`:
one `TaskReport` per group touched, with the comma-joined names of the
group's members on the card, driven by the first such member. -/
def rowsForGroupName (lists : List TrelloList) (members : List Member) (today : Int)
    (card : Card) (list_name : String) (nome_grupo : String) : List TaskReport :=
  match GRUPOS_MARKETING.find? (fun g => g.name == nome_grupo) with
  | none => []
  | some grupo =>
      let membros_do_grupo := membersInGroup members card nome_grupo
      match membros_do_grupo.head? with
      | none => []
      | some primeiro_membro =>
          let collaborator_names := String.intercalate ", " (membros_do_grupo.map (·.fullName))
          let task_status := get_task_status_for_collaborator card primeiro_membro.username lists today
          let days_late := calculate_days_late_for_collaborator card primeiro_membro.username lists today
          [ baseRow card list_name collaborator_names task_status days_late (some grupo) ]

/-- One row for a member without a group. -/
def rowForUngroupedMember (lists : List TrelloList) (today : Int)
    (card : Card) (list_name : String) (member : Member) : TaskReport :=
  baseRow card list_name member.fullName
    (get_task_status_for_collaborator card member.username lists today)
    (calculate_days_late_for_collaborator card member.username lists today) none

/-- The rows `generate_task_reports` appends for one filtered card. -/
def rowsForCard (lists : List TrelloList) (members : List Member) (today : Int)
    (card : Card) : List TaskReport :=
  let list_name := resolvedListName lists card
  if card.idMembers.isEmpty then
    [ baseRow card list_name "Não atribuído"
        (get_task_status card lists members today) (calculate_days_late card today) none ]
  else
    let card_members := cardMembers members card
    let grupos_encontrados := dedupKeepFirst (card_members.filterMap memberGroupName)
    let membros_sem_grupo := card_members.filter (fun m => (memberGroupName m).isNone)
    grupos_encontrados.flatMap (rowsForGroupName lists members today card list_name)
      ++ membros_sem_grupo.map (rowForUngroupedMember lists today card list_name)

/-- `generate_task_reports` (`data_processor.py:444`). -/
def generate_task_reports (data : TrelloData) (start_date end_date today : Int) : List TaskReport :=
  (filter_cards_by_date_range data.cards start_date end_date data.lists).flatMap
    (rowsForCard data.lists data.members today)

/-! ## Aggregator (`generate_report_summary`) -/

/-- Python-dict deduplication keeping the first element per key, in input
order (`unique_tasks_map`). -/
def dedupByKeyAux (key : TaskReport → String) (seen : List String) : List TaskReport → List TaskReport
  | [] => []
  | t :: ts =>
      if seen.contains (key t) then dedupByKeyAux key seen ts
      else t :: dedupByKeyAux key (key t :: seen) ts

def dedupByKey (key : TaskReport → String) (ts : List TaskReport) : List TaskReport :=
  dedupByKeyAux key [] ts

/-- `len([t for t in ts if t.status == status])`. -/
def countStatus (ts : List TaskReport) (status : String) : Nat :=
  (ts.filter (fun t => t.status == status)).length

/-- The individual names a row's collaborator field stands for, splitting a
comma-joined field. -/
def collaboratorNamesOf (t : TaskReport) : List String :=
  if strContains t.collaborator_name "," then
    (pySplitComma t.collaborator_name).map pyStrip
  else [t.collaborator_name]

/-- Python truthiness of `t.grupo`: `not t.grupo` holds for an absent or
empty group name. -/
def hasNoGrupo (t : TaskReport) : Bool :=
  match t.grupo with
  | none => true
  | some s => s == ""

/-- The per-group body of the summary loop, shared by the four marketing
groups and the `'Sem Grupo'` pseudo-group: counts over the group's rows
after task-id deduplication. -/
def mkGroupCounts (grupo_label : String) (responsaveis : List String)
    (group_tasks : List TaskReport) : GroupReportSummary :=
  let unique_group_tasks := dedupByKey (·.task_id) group_tasks
  let completed_with_due :=
    unique_group_tasks.filter (fun t => t.status == "Concluída" && t.due_date != "Não definida")
  { grupo := grupo_label
  , responsaveis := responsaveis
  , total_tasks := unique_group_tasks.length
  , completed_tasks := countStatus unique_group_tasks "Concluída"
  , in_progress_tasks := countStatus unique_group_tasks "Em Andamento"
  , late_tasks := countStatus unique_group_tasks "Atrasada"
  , blocked_tasks := countStatus unique_group_tasks "Bloqueada"
  , on_time_deliveries := (completed_with_due.filter (fun t => t.days_late == 0)).length
  , late_deliveries := (completed_with_due.filter (fun t => decide (0 < t.days_late))).length }

/-- `generate_report_summary` (`data_processor.py:591`). -/
def generate_report_summary (task_reports : List TaskReport) : ReportSummary :=
  let unique_tasks := dedupByKey (·.task_id) task_reports
  let sem_grupo_tasks := task_reports.filter hasNoGrupo
  { total_tasks := unique_tasks.length
  , completed_tasks := countStatus unique_tasks "Concluída"
  , in_progress_tasks := countStatus unique_tasks "Em Andamento"
  , late_tasks := countStatus unique_tasks "Atrasada"
  , overdue_tasks := countStatus unique_tasks "Atrasada"
  , blocked_tasks := countStatus unique_tasks "Bloqueada"
  , total_collaborators := (unique_tasks.flatMap collaboratorNamesOf).toFinset.card
  , group_summaries :=
      GRUPOS_MARKETING.map (fun grupo_obj =>
        mkGroupCounts grupo_obj.name (grupo_obj.responsaveis.map (·.nome))
          (task_reports.filter (fun t => t.grupo == some grupo_obj.name)))
        ++ (if sem_grupo_tasks.isEmpty then []
            else [mkGroupCounts "Sem Grupo" [] sem_grupo_tasks]) }

/-! ## Per-collaborator aggregation (`generate_collaborator_reports`) -/

/-- The dedup key `f"{task.task_name}-{task.grupo or 'no-group'}"`:
string concatenation of the task name and the (falsy-defaulted) group. -/
def collabKey (t : TaskReport) : String :=
  t.task_name ++ "-" ++
    (match t.grupo with
     | some s => if s == "" then "no-group" else s
     | none => "no-group")

/-- A task copy reassigned to one individual collaborator, every other
field preserved. -/
def copyWith (t : TaskReport) (nome : String) : TaskReport :=
  { t with collaborator_name := nome }

/-- Append `t` to the entry for `k` in the insertion-ordered collaborator
map, creating the entry at the end if absent. -/
def upsert (m : List (String × List TaskReport)) (k : String) (t : TaskReport) :
    List (String × List TaskReport) :=
  if m.any (fun p => p.1 == k) then
    m.map (fun p => if p.1 == k then (p.1, p.2 ++ [t]) else p)
  else m ++ [(k, [t])]

/-- `[nome.strip() for nome in collaborator.split(',')]`. -/
def splitStrip (s : String) : List String := (pySplitComma s).map pyStrip

/-- One iteration of the grouping loop of `generate_collaborator_reports`. -/
def collabStep (m : List (String × List TaskReport)) (task : TaskReport) :
    List (String × List TaskReport) :=
  if strContains task.collaborator_name "," then
    (splitStrip task.collaborator_name).foldl (fun m' nome => upsert m' nome (copyWith task nome)) m
  else upsert m task.collaborator_name task

/-- The `collaborator_map` after the grouping loop. -/
def collabMap (task_reports : List TaskReport) : List (String × List TaskReport) :=
  task_reports.foldl collabStep []

/-- Stable insertion into a `le`-sorted list, after existing equal keys:
composed over a list this is Python's stable ascending `sorted`. -/
def insertLe {α : Type} (le : α → α → Bool) (x : α) : List α → List α
  | [] => [x]
  | y :: ys => if le y x then y :: insertLe le x ys else x :: y :: ys

def stableSortLe {α : Type} (le : α → α → Bool) (l : List α) : List α :=
  l.foldl (fun acc x => insertLe le x acc) []

/-- The sort key rank: `Atrasada` first, then `Concluída`, then the rest. -/
def statusRank (status : String) : Nat :=
  if status == "Atrasada" then 0 else if status == "Concluída" then 1 else 2

/-- `(status rank, task name)` tuple comparison used to order one
collaborator's tasks. -/
def taskSortLe (t u : TaskReport) : Bool :=
  statusRank t.status < statusRank u.status ||
    (statusRank t.status == statusRank u.status && pyStrLe t.task_name u.task_name)

/-- The report built for one collaborator-map entry. -/
def mkCollaboratorReport (collaborator_name : String) (tasks : List TaskReport) :
    CollaboratorReport :=
  let unique_tasks := dedupByKey collabKey tasks
  let total_tasks := unique_tasks.length
  let completed_tasks := countStatus unique_tasks "Concluída"
  let late_days :=
    (unique_tasks.filter (fun t =>
      decide (0 < t.days_late) && (t.status == "Atrasada" || t.status == "Em Andamento"))).map (·.days_late)
  { collaborator_name := collaborator_name
  , total_tasks := total_tasks
  , completed_tasks := completed_tasks
  , in_progress_tasks := countStatus unique_tasks "Em Andamento"
  , pending_tasks := total_tasks - completed_tasks
  , late_tasks := countStatus unique_tasks "Atrasada"
  , blocked_tasks := countStatus unique_tasks "Bloqueada"
  , completion_rate :=
      if 0 < total_tasks then { num := (completed_tasks : Int) * 100, den := (total_tasks : Int) }
      else { num := 0, den := 1 }
  , average_days_late :=
      if late_days.isEmpty then pyRound { num := 0, den := 1 }
      else pyRound { num := late_days.sum, den := (late_days.length : Int) }
  , tasks := stableSortLe taskSortLe unique_tasks }

/-- `reports.sort(key=completion_rate, reverse=True)`: stable descending. -/
def reportSortGe (r s : CollaboratorReport) : Bool :=
  PyRat.le s.completion_rate r.completion_rate

/-- `generate_collaborator_reports` (`data_processor.py:716`). -/
def generate_collaborator_reports (task_reports : List TaskReport) : List CollaboratorReport :=
  stableSortLe reportSortGe
    ((collabMap task_reports).map (fun entry => mkCollaboratorReport entry.1 entry.2))

/-! ## Helper lemmas about the embedded combinators -/

theorem dedupByKeyAux_length (k : TaskReport → String) :
    ∀ (ts : List TaskReport) (seen : List String),
      (dedupByKeyAux k seen ts).length = ((ts.map k).toFinset \ seen.toFinset).card := by
  intro ts
  induction ts with
  | nil => intro seen; simp [dedupByKeyAux]
  | cons t ts ih =>
    intro seen
    simp only [dedupByKeyAux]
    by_cases h : seen.contains (k t)
    · rw [if_pos h, ih]
      congr 1
      ext x
      have ha : k t ∈ seen := by simpa using h
      simp only [List.map_cons, List.toFinset_cons, Finset.mem_sdiff, Finset.mem_insert,
        List.mem_toFinset]
      by_cases hx : x = k t
      · subst hx; simp [ha]
      · simp [hx]
    · rw [if_neg h]
      have ha : k t ∉ seen := by simpa using h
      have hset : ((t :: ts).map k).toFinset \ seen.toFinset
          = insert (k t) ((ts.map k).toFinset \ (k t :: seen).toFinset) := by
        ext x
        simp only [List.map_cons, List.toFinset_cons, Finset.mem_sdiff, Finset.mem_insert,
          List.mem_toFinset, List.mem_cons]
        by_cases hx : x = k t
        · subst hx; simp [ha]
        · simp [hx]
      rw [List.length_cons, ih (k t :: seen), hset,
        Finset.card_insert_of_not_mem (by simp [List.toFinset_cons])]

theorem dedupByKey_length (k : TaskReport → String) (ts : List TaskReport) :
    (dedupByKey k ts).length = (ts.map k).toFinset.card := by
  simpa [dedupByKey] using dedupByKeyAux_length k ts []

theorem mem_of_mem_dedupByKeyAux (k : TaskReport → String) :
    ∀ (ts : List TaskReport) (seen : List String) (t : TaskReport),
      t ∈ dedupByKeyAux k seen ts → t ∈ ts := by
  intro ts
  induction ts with
  | nil => intro seen t h; simp [dedupByKeyAux] at h
  | cons u ts ih =>
    intro seen t h
    simp only [dedupByKeyAux] at h
    by_cases hc : seen.contains (k u)
    · rw [if_pos hc] at h
      exact List.mem_cons_of_mem u (ih seen t h)
    · rw [if_neg hc] at h
      rcases List.mem_cons.1 h with rfl | h
      · exact List.mem_cons_self _ _
      · exact List.mem_cons_of_mem u (ih (k u :: seen) t h)

theorem dedupByKeyAux_key_surj (k : TaskReport → String) :
    ∀ (ts : List TaskReport) (seen : List String) (c : TaskReport),
      c ∈ ts → ¬ seen.contains (k c) = true →
        ∃ t ∈ dedupByKeyAux k seen ts, k t = k c := by
  intro ts
  induction ts with
  | nil => intro seen c hc; simp at hc
  | cons u ts ih =>
    intro seen c hc hs
    simp only [dedupByKeyAux]
    by_cases hcu : seen.contains (k u)
    · rw [if_pos hcu]
      rcases List.mem_cons.1 hc with rfl | hc
      · exact absurd hcu hs
      · exact ih seen c hc hs
    · rw [if_neg hcu]
      by_cases hkey : k c = k u
      · exact ⟨u, List.mem_cons_self _ _, hkey.symm⟩
      · rcases List.mem_cons.1 hc with rfl | hc
        · exact absurd rfl hkey
        · have hs' : ¬ (k u :: seen).contains (k c) = true := by
            intro hmem
            rcases (by simpa using hmem : k c = k u ∨ k c ∈ seen) with h | h
            · exact hkey h
            · exact hs (by simpa using h)
          obtain ⟨t, ht, hkt⟩ := ih (k u :: seen) c hc hs'
          exact ⟨t, List.mem_cons_of_mem u ht, hkt⟩

theorem insertLe_perm {α : Type} (le : α → α → Bool) (x : α) :
    ∀ l : List α, (insertLe le x l).Perm (x :: l) := by
  intro l
  induction l with
  | nil => simp [insertLe]
  | cons y ys ih =>
    simp only [insertLe]
    by_cases h : le y x
    · rw [if_pos h]
      exact (ih.cons y).trans (List.Perm.swap x y ys)
    · rw [if_neg h]

theorem stableSortLe_foldl_perm {α : Type} (le : α → α → Bool) :
    ∀ (l acc : List α), (l.foldl (fun a x => insertLe le x a) acc).Perm (acc ++ l) := by
  intro l
  induction l with
  | nil => intro acc; simp
  | cons x xs ih =>
    intro acc
    simp only [List.foldl_cons]
    have h1 := ih (insertLe le x acc)
    have h2 := (insertLe_perm le x acc).append_right xs
    exact (h1.trans h2).trans List.perm_middle.symm

theorem stableSortLe_perm {α : Type} (le : α → α → Bool) (l : List α) :
    (stableSortLe le l).Perm l := by
  simpa [stableSortLe] using stableSortLe_foldl_perm le l []

theorem count_dedupKeepFirstAux (x : String) :
    ∀ (l seen : List String),
      (dedupKeepFirstAux seen l).count x = if x ∈ l ∧ x ∉ seen then 1 else 0 := by
  intro l
  induction l with
  | nil => intro seen; simp [dedupKeepFirstAux]
  | cons a l ih =>
    intro seen
    simp only [dedupKeepFirstAux]
    by_cases hc : seen.contains a
    · rw [if_pos hc, ih]
      have ha : a ∈ seen := by simpa using hc
      by_cases hx : x = a
      · subst hx; simp [ha]
      · simp [List.mem_cons, hx]
    · rw [if_neg hc]
      have ha : a ∉ seen := by simpa using hc
      rw [List.count_cons, ih (a :: seen)]
      by_cases hx : x = a
      · subst hx; simp [List.mem_cons, ha]
      · have : (a == x) = false := by simpa using fun h => hx h.symm
        simp only [this, List.mem_cons, hx, false_or, cond_false]
        by_cases hxl : x ∈ l <;> by_cases hxs : x ∈ seen <;> simp [hxl, hxs, hx]

theorem count_dedupKeepFirst (x : String) (l : List String) :
    (dedupKeepFirst l).count x = if x ∈ l then 1 else 0 := by
  rw [dedupKeepFirst, count_dedupKeepFirstAux]
  simp

theorem mem_dedupKeepFirst_iff (x : String) (l : List String) :
    x ∈ dedupKeepFirst l ↔ x ∈ l := by
  rw [← List.count_pos_iff, ← List.count_pos_iff (l := l), count_dedupKeepFirst]
  by_cases h : x ∈ l <;> simp [h]

theorem countP_flatMap {α β : Type} (p : β → Bool) (f : α → List β) :
    ∀ l : List α, (l.flatMap f).countP p = (l.map (fun a => (f a).countP p)).sum := by
  intro l
  induction l with
  | nil => simp
  | cons a l ih => simp [List.flatMap_cons, List.countP_append, ih]

theorem sum_map_indicator (g : String) :
    ∀ l : List String, (l.map (fun a => if a = g then 1 else 0)).sum = l.count g := by
  intro l
  induction l with
  | nil => simp
  | cons a l ih =>
    rw [List.map_cons, List.sum_cons, ih, List.count_cons]
    by_cases h : a = g
    · subst h; simp [Nat.add_comm]
    · have : (a == g) = false := by simpa using h
      simp [h, this]

theorem contains_eq_true_iff_mem {α : Type} [BEq α] [LawfulBEq α] (l : List α) (a : α) :
    l.contains a = true ↔ a ∈ l := List.elem_iff

/-- The claim-side reading of "has a due-timestamp and it is in the past":
a parseable due date strictly before today.  It coincides with the code's
`card.get('due') and self._is_overdue(card)` guard. -/
def hasPastDueTimestamp (card : Card) (today : Int) : Bool :=
  match card.due with
  | some ts =>
      match parseTS ts with
      | some due_date => decide (due_date < today)
      | none => false
  | none => false

theorem due_isSome_and_overdue_eq (card : Card) (today : Int) :
    (card.due.isSome && is_overdue card today) = hasPastDueTimestamp card today := by
  cases hdue : card.due with
  | none => simp [is_overdue, hasPastDueTimestamp, hdue]
  | some ts => cases ts <;> simp [is_overdue, hasPastDueTimestamp, hdue, parseTS]

theorem table_late_guard_eq (st : String) (card : Card) (today : Int) :
    (st != "Concluída" && card.due.isSome && is_overdue card today)
      = (st != "Concluída" && hasPastDueTimestamp card today) := by
  cases hdue : card.due with
  | none => simp [is_overdue, hasPastDueTimestamp, hdue]
  | some ts =>
    cases ts <;>
      simp [is_overdue, hasPastDueTimestamp, hdue, parseTS, Bool.and_assoc]

theorem windowPred_done (ids : List String) (s e : Int) (c : Card)
    (hcl : c.closed = false) (lid : String) (hlid : c.idList = some lid)
    (hin : ids.contains lid = true) :
    windowPred ids s e c =
      (match c.due with
       | some ts =>
           match parseTS ts with
           | some due_date => decide (s ≤ due_date) && decide (due_date ≤ e)
           | none => false
       | none => false) := by
  simp only [windowPred, hcl, Bool.false_eq_true, if_false, hlid, hin, if_true]

/-! ## C3 -/

/-- C3: a non-archived card sitting in a done list passes the window
filter exactly when its due-timestamp parses to a date inside
`[start_date, end_date]`; with no due-timestamp, or a malformed one, it is
excluded regardless of its last-activity date. -/
theorem c3_done_list_window (cards : List Card) (lists : List TrelloList)
    (start_date end_date : Int) (c : Card)
    (hmem : c ∈ cards) (hcl : c.closed = false)
    (hdone : ∃ lid, c.idList = some lid ∧
      ∃ l ∈ lists, l.id = lid ∧ isCompletedListName l.name = true) :
    (c ∈ filter_cards_by_date_range cards start_date end_date lists
      ↔ ∃ d, c.due = some (Timestamp.valid d) ∧ start_date ≤ d ∧ d ≤ end_date) := by
  obtain ⟨lid, hlid, l, hl, hlid2, hcompl⟩ := hdone
  have hin : (completedListIds lists).contains lid = true := by
    rw [contains_eq_true_iff_mem]
    simp only [completedListIds, List.mem_map]
    exact ⟨l, List.mem_filter.2 ⟨hl, hcompl⟩, hlid2⟩
  have hred := windowPred_done (completedListIds lists) start_date end_date c hcl lid hlid hin
  constructor
  · intro hf
    have hp := (List.mem_filter.1 hf).2
    rw [hred] at hp
    cases hdue : c.due with
    | none => rw [hdue] at hp; simp at hp
    | some ts =>
      cases ts with
      | valid d =>
        rw [hdue] at hp
        simp only [parseTS, Bool.and_eq_true, decide_eq_true_eq] at hp
        exact ⟨d, rfl, hp.1, hp.2⟩
      | malformed => rw [hdue] at hp; simp [parseTS] at hp
  · rintro ⟨d, hdue, h1, h2⟩
    refine List.mem_filter.2 ⟨hmem, ?_⟩
    rw [hred, hdue]
    simp [parseTS, h1, h2]

def c3_card : Card :=
  { id := "c1", name := "T1", idList := some "L1", idMembers := []
  , due := some (.valid 10), dateLastActivity := none, closed := false, desc := "" }

def c3_list : TrelloList := { id := "L1", name := "FEITOS" }

theorem c3_done_list_window_witness :
    (c3_card ∈ filter_cards_by_date_range [c3_card] 0 100 [c3_list]
      ↔ ∃ d, c3_card.due = some (Timestamp.valid d) ∧ 0 ≤ d ∧ d ≤ 100) :=
  c3_done_list_window [c3_card] [c3_list] 0 100 c3_card (by decide) (by decide)
    ⟨"L1", rfl, c3_list, by decide, rfl, by decide⟩

/-! ## C4 -/

/-- The claim's priority cascade for `get_task_status`, written in the
order the specification lists the rules, over the found list's
uppercased-and-stripped name. -/
def c4_spec_status (card : Card) (l : TrelloList) (today : Int) : String :=
  let lnu := pyStrip (pyUpper l.name)
  if containsDoneKeyword lnu then "Concluída"
  else if strContains lnu "AGUARDANDO" && strContains lnu "RETORNO"
          && strContains lnu "TERCEIRO" then "Concluída"
  else
    match listStatusLookup lnu with
    | some table_status =>
        if table_status != "Concluída" && hasPastDueTimestamp card today
        then "Atrasada" else table_status
    | none =>
        if ["BLOQUEADA", "PARADA", "AGUARDANDO"].any (fun keyword => strContains lnu keyword)
        then "Bloqueada"
        else if ["PLANEJ", "PLAN"].any (fun keyword => strContains lnu keyword)
        then "Planejamento"
        else if strContains lnu "RECORREN" then "Recorrente"
        else if hasPastDueTimestamp card today then "Atrasada"
        else "Em Andamento"

/-- C4: for a non-archived card whose list is found, `get_task_status`
follows exactly the claimed priority cascade (done-keyword, then
third-party-pending, then the static table with its late override, then
blocked/planning/recurring keywords, then past-due, then the
`'Em Andamento'` default); an archived card is `'Concluída'` before any of
these checks. -/
theorem c4_status_priority (card : Card) (lists : List TrelloList) (members : List Member)
    (today : Int) :
    (card.closed = true → get_task_status card lists members today = "Concluída")
    ∧ (card.closed = false → ∀ l, findList lists card = some l →
        get_task_status card lists members today = c4_spec_status card l today) := by
  constructor
  · intro h; simp [get_task_status, h]
  · intro h l hfind
    simp only [get_task_status, h, Bool.false_eq_true, if_false, hfind]
    simp only [statusForListName, c4_spec_status, due_isSome_and_overdue_eq,
      table_late_guard_eq]

def c4_card_closed : Card :=
  { id := "c2", name := "T2", idList := some "L1", idMembers := []
  , due := none, dateLastActivity := none, closed := true, desc := "" }

def c4_card_open : Card :=
  { id := "c3", name := "T3", idList := some "L2", idMembers := []
  , due := some (.valid 10), dateLastActivity := none, closed := false, desc := "" }

def c4_list_open : TrelloList := { id := "L2", name := "EM PROCESSO DE MONTAGEM" }

theorem c4_status_priority_witness :
    (get_task_status c4_card_closed [c4_list_open] [] 50 = "Concluída")
    ∧ (get_task_status c4_card_open [c4_list_open] [] 50
        = c4_spec_status c4_card_open c4_list_open 50) :=
  ⟨(c4_status_priority c4_card_closed [c4_list_open] [] 50).1 rfl,
   (c4_status_priority c4_card_open [c4_list_open] [] 50).2 rfl c4_list_open (by decide)⟩

/-! ## C5 -/

/-- C5: for a non-archived card, a content-creator viewer sees
`'Em Andamento'` (or `'Atrasada'` on a past due-timestamp) exactly while
the card's found list is `'EM PROCESSO DE CONTEÚDO'`, and `'Concluída'` in
every other list; any other viewer sees the viewer-agnostic
`get_task_status`. -/
theorem c5_content_creator_view (card : Card) (lists : List TrelloList) (today : Int)
    (u : String) (hcl : card.closed = false) :
    (∀ l, u ∈ CONTENT_CREATORS → findList lists card = some l →
      get_task_status_for_collaborator card u lists today =
        (if pyStrip (pyUpper l.name) == "EM PROCESSO DE CONTEÚDO"
         then (if hasPastDueTimestamp card today then "Atrasada" else "Em Andamento")
         else "Concluída"))
    ∧ (u ∉ CONTENT_CREATORS →
      get_task_status_for_collaborator card u lists today = get_task_status card lists [] today) := by
  constructor
  · intro l hu hfind
    have hc : CONTENT_CREATORS.contains u = true := (contains_eq_true_iff_mem _ _).2 hu
    simp only [get_task_status_for_collaborator, hcl, Bool.false_eq_true, if_false, hc,
      Bool.not_true, hfind, due_isSome_and_overdue_eq]
  · intro hu
    have hc : CONTENT_CREATORS.contains u = false := by
      by_contra h
      exact hu ((contains_eq_true_iff_mem _ _).1 (by simpa using h))
    simp only [get_task_status_for_collaborator, hcl, Bool.false_eq_true, if_false, hc,
      Bool.not_false, if_true]

def c5_card : Card :=
  { id := "c4", name := "T4", idList := some "L3", idMembers := ["m1"]
  , due := none, dateLastActivity := none, closed := false, desc := "" }

def c5_list : TrelloList := { id := "L3", name := "EM PROCESSO DE CONTEÚDO" }

theorem c5_content_creator_view_witness :
    (get_task_status_for_collaborator c5_card "jamillyfreitass" [c5_list] 50 =
      (if pyStrip (pyUpper c5_list.name) == "EM PROCESSO DE CONTEÚDO"
       then (if hasPastDueTimestamp c5_card 50 then "Atrasada" else "Em Andamento")
       else "Concluída"))
    ∧ (get_task_status_for_collaborator c5_card "outsider" [c5_list] 50
        = get_task_status c5_card [c5_list] [] 50) :=
  ⟨(c5_content_creator_view c5_card [c5_list] 50 "jamillyfreitass" rfl).1 c5_list
      (by decide) (by decide),
   (c5_content_creator_view c5_card [c5_list] 50 "outsider" rfl).2 (by decide)⟩

/-! ## C6 -/

/-- C6: days-late is `max 0 (today - due)` in whole calendar days for a
parseable due date on a live card; it is 0 for an archived card, an absent
or malformed due-timestamp, and — for a content-creator viewer — once the
card has left the `'EM PROCESSO DE CONTEÚDO'` list; otherwise the
per-collaborator computation agrees with the plain one. -/
theorem c6_days_late (card : Card) (u : String) (lists : List TrelloList) (today : Int) :
    (∀ d, card.due = some (Timestamp.valid d) → card.closed = false →
      calculate_days_late card today = max 0 (today - d))
    ∧ (card.closed = true ∨ card.due = none ∨ card.due = some Timestamp.malformed →
      calculate_days_late card today = 0)
    ∧ (∀ l, u ∈ CONTENT_CREATORS → findList lists card = some l →
        (pyStrip (pyUpper l.name) == "EM PROCESSO DE CONTEÚDO") = false →
        calculate_days_late_for_collaborator card u lists today = 0)
    ∧ (u ∉ CONTENT_CREATORS →
      calculate_days_late_for_collaborator card u lists today = calculate_days_late card today)
    ∧ (∀ l, u ∈ CONTENT_CREATORS → findList lists card = some l →
        (pyStrip (pyUpper l.name) == "EM PROCESSO DE CONTEÚDO") = true →
        calculate_days_late_for_collaborator card u lists today = calculate_days_late card today) := by
  refine ⟨?_, ?_, ?_, ?_, ?_⟩
  · intro d hdue hcl
    simp only [calculate_days_late, hdue, hcl, Bool.false_eq_true, if_false, parseTS]
    split <;> omega
  · rintro (h | h | h) <;> simp [calculate_days_late, h, parseTS]
    · cases card.due with
      | none => rfl
      | some ts => simp
  · intro l hu hfind hne
    have hne' : ¬ (pyStrip (pyUpper l.name) = "EM PROCESSO DE CONTEÚDO") := by
      simpa using hne
    cases hdue : card.due with
    | none => simp [calculate_days_late_for_collaborator, hdue]
    | some ts =>
      by_cases hcl : card.closed
      · simp [calculate_days_late_for_collaborator, hdue, hcl]
      · simp [calculate_days_late_for_collaborator, hdue, hcl, hfind, hu, hne']
  · intro hu
    cases hdue : card.due with
    | none => simp [calculate_days_late_for_collaborator, calculate_days_late, hdue]
    | some ts =>
      by_cases hcl : card.closed
      · simp [calculate_days_late_for_collaborator, calculate_days_late, hdue, hcl]
      · simp [calculate_days_late_for_collaborator, hdue, hcl, hu]
  · intro l hu hfind heq
    have heq' : pyStrip (pyUpper l.name) = "EM PROCESSO DE CONTEÚDO" := by
      simpa using heq
    cases hdue : card.due with
    | none => simp [calculate_days_late_for_collaborator, calculate_days_late, hdue]
    | some ts =>
      by_cases hcl : card.closed
      · simp [calculate_days_late_for_collaborator, calculate_days_late, hdue, hcl]
      · simp [calculate_days_late_for_collaborator, hdue, hcl, hu, hfind, heq']

def c6_card : Card :=
  { id := "c5", name := "T5", idList := some "L2", idMembers := []
  , due := some (.valid 5), dateLastActivity := none, closed := false, desc := "" }

theorem c6_days_late_witness :
    (calculate_days_late c6_card 50 = max 0 (50 - 5))
    ∧ (calculate_days_late_for_collaborator c6_card "jamillyfreitass" [c4_list_open] 50 = 0)
    ∧ (calculate_days_late_for_collaborator c6_card "outsider" [c4_list_open] 50
        = calculate_days_late c6_card 50) :=
  ⟨(c6_days_late c6_card "outsider" [] 50).1 5 rfl rfl,
   (c6_days_late c6_card "jamillyfreitass" [c4_list_open] 50).2.2.1 c4_list_open
      (by decide) (by decide) (by decide),
   (c6_days_late c6_card "outsider" [c4_list_open] 50).2.2.2.1 (by decide)⟩

/-! ## C9 -/

/-- The error list of `validate_trello_data` on a dict, with the
field-loop unrolled. -/
def validateErrors (fs : List (String × JVal)) : List String :=
  reqFieldErrs fs "cards" ++ reqFieldErrs fs "lists" ++ reqFieldErrs fs "members"
    ++ reqFieldErrs fs "name" ++ nameTypeErrs fs

theorem validate_dict_eq (fs : List (String × JVal)) :
    validate_trello_data (JVal.dict fs) = ((validateErrors fs).isEmpty, validateErrors fs) := by
  simp [validate_trello_data, validateErrors, List.flatMap_cons, List.flatMap_nil,
    List.append_assoc]

/-- Spec-side: the claim's notion of a well-formed upload, a dict with a
string `'name'` and list-valued `'cards'`, `'lists'`, `'members'`. -/
def specWellFormed (data : JVal) : Prop :=
  ∃ fs, data = JVal.dict fs
    ∧ (∃ s, jLookup fs "name" = some (JVal.str s))
    ∧ (∃ xs, jLookup fs "cards" = some (JVal.arr xs))
    ∧ (∃ xs, jLookup fs "lists" = some (JVal.arr xs))
    ∧ (∃ xs, jLookup fs "members" = some (JVal.arr xs))

/-- Spec-side violation count, per the claim's words: one violation per
missing required field plus one per present-but-wrongly-typed field. -/
def specViolationCount (fs : List (String × JVal)) : Nat :=
  (if (jLookup fs "cards").isNone then 1 else 0)
    + (if (jLookup fs "lists").isNone then 1 else 0)
    + (if (jLookup fs "members").isNone then 1 else 0)
    + (if (jLookup fs "name").isNone then 1 else 0)
    + (match jLookup fs "cards" with | some v => if v.isArr then 0 else 1 | none => 0)
    + (match jLookup fs "lists" with | some v => if v.isArr then 0 else 1 | none => 0)
    + (match jLookup fs "members" with | some v => if v.isArr then 0 else 1 | none => 0)
    + (match jLookup fs "name" with | some v => if v.isStr then 0 else 1 | none => 0)

theorem reqFieldErrs_sublist (fs : List (String × JVal)) (f : String) :
    (reqFieldErrs fs f).Sublist [msgMissing f, msgNotList f] := by
  cases h : jLookup fs f with
  | none =>
    simp only [reqFieldErrs, h]
    exact List.Sublist.cons₂ _ (List.nil_sublist _)
  | some v =>
    simp only [reqFieldErrs, h]
    by_cases hb : (f != "name" && !v.isArr) = true
    · rw [if_pos hb]; exact List.Sublist.cons _ (List.Sublist.refl _)
    · rw [if_neg hb]; exact List.nil_sublist _

theorem reqFieldErrs_name_sublist (fs : List (String × JVal)) :
    (reqFieldErrs fs "name").Sublist [msgMissing "name"] := by
  cases h : jLookup fs "name" with
  | none =>
    simp only [reqFieldErrs, h]
    exact List.Sublist.refl _
  | some v =>
    simp only [reqFieldErrs, h]
    rw [if_neg (by simp)]
    exact List.nil_sublist _

theorem nameTypeErrs_sublist (fs : List (String × JVal)) :
    (nameTypeErrs fs).Sublist [msgNameNotStr] := by
  unfold nameTypeErrs
  cases jLookup fs "name" with
  | none => exact List.Sublist.refl _
  | some v => cases v <;> first
    | exact List.nil_sublist _
    | exact List.Sublist.refl _

theorem reqFieldErrs_length (fs : List (String × JVal)) (f : String)
    (hf : (f != "name") = true) :
    (reqFieldErrs fs f).length
      = (if (jLookup fs f).isNone then 1 else 0)
        + (match jLookup fs f with | some v => if v.isArr then 0 else 1 | none => 0) := by
  unfold reqFieldErrs
  cases h : jLookup fs f with
  | none => simp
  | some v => by_cases ha : v.isArr <;> simp [hf, ha]

theorem reqFieldErrs_name_length (fs : List (String × JVal)) :
    (reqFieldErrs fs "name").length = (if (jLookup fs "name").isNone then 1 else 0) := by
  unfold reqFieldErrs
  cases h : jLookup fs "name" with
  | none => simp
  | some v => simp

theorem nameTypeErrs_length (fs : List (String × JVal)) :
    (nameTypeErrs fs).length
      = (match jLookup fs "name" with
         | some v => if v.isStr then 0 else 1
         | none => 1) := by
  unfold nameTypeErrs
  cases h : jLookup fs "name" with
  | none => simp
  | some v => cases v <;> simp [JVal.isStr]

def c9_bad_fields : List (String × JVal) :=
  [("cards", JVal.arr []), ("lists", JVal.arr []), ("members", JVal.arr [])]

/-- C9 counterexample: on an upload whose only defect is the missing
`'name'` field — one missing required field, no wrongly-typed field —
`validate_trello_data` emits two error messages, not the claimed one
message per violation. -/
theorem c9_validation_counterexample :
    (validate_trello_data (JVal.dict c9_bad_fields)).2.length = 2
      ∧ specViolationCount c9_bad_fields = 1 := ⟨rfl, rfl⟩

/-- C9 (amended): `validate_trello_data` accepts exactly the dicts with a
string `'name'` and list-valued `'cards'`/`'lists'`/`'members'`, returns
no message on success, returns pairwise-distinct messages, and returns
one message per violation except that a missing `'name'` contributes two
messages (the missing-field message and the name-must-be-a-string
message). -/
theorem c9_validate_amended (data : JVal) :
    ((validate_trello_data data).1 = true ↔ specWellFormed data)
    ∧ ((validate_trello_data data).1 = true → (validate_trello_data data).2 = [])
    ∧ (validate_trello_data data).2.Nodup
    ∧ (∀ fs, data = JVal.dict fs →
        (validate_trello_data data).2.length
          = specViolationCount fs + (if (jLookup fs "name").isNone then 1 else 0)) := by
  refine ⟨?_, ?_, ?_, ?_⟩
  · constructor
    · intro hv
      cases data with
      | dict fs =>
        rw [validate_dict_eq] at hv
        have hnil : validateErrors fs = [] := by
          simpa [List.isEmpty_iff] using hv
        unfold validateErrors at hnil
        simp only [List.append_eq_nil] at hnil
        obtain ⟨⟨⟨⟨hc, hl⟩, hm⟩, hn⟩, hns⟩ := hnil
        refine ⟨fs, rfl, ?_, ?_, ?_, ?_⟩
        · revert hns
          unfold nameTypeErrs
          cases h : jLookup fs "name" with
          | none => simp
          | some v => cases v <;> simp
        · revert hc
          unfold reqFieldErrs
          cases h : jLookup fs "cards" with
          | none => simp
          | some v => cases v <;> simp [JVal.isArr]
        · revert hl
          unfold reqFieldErrs
          cases h : jLookup fs "lists" with
          | none => simp
          | some v => cases v <;> simp [JVal.isArr]
        · revert hm
          unfold reqFieldErrs
          cases h : jLookup fs "members" with
          | none => simp
          | some v => cases v <;> simp [JVal.isArr]
      | str s => simp [validate_trello_data] at hv
      | arr xs => simp [validate_trello_data] at hv
      | other => simp [validate_trello_data] at hv
    · rintro ⟨fs, rfl, ⟨s, hn⟩, ⟨xc, hc⟩, ⟨xl, hl⟩, ⟨xm, hm⟩⟩
      rw [validate_dict_eq]
      simp [validateErrors, reqFieldErrs, nameTypeErrs, hn, hc, hl, hm, JVal.isArr]
  · intro hv
    cases data with
    | dict fs =>
      rw [validate_dict_eq] at hv ⊢
      simpa [List.isEmpty_iff] using hv
    | str s => simp [validate_trello_data] at hv
    | arr xs => simp [validate_trello_data] at hv
    | other => simp [validate_trello_data] at hv
  · cases data with
    | dict fs =>
      rw [validate_dict_eq]
      have hsub : (validateErrors fs).Sublist
          [msgMissing "cards", msgNotList "cards", msgMissing "lists", msgNotList "lists",
           msgMissing "members", msgNotList "members", msgMissing "name", msgNameNotStr] :=
        ((((reqFieldErrs_sublist fs "cards").append (reqFieldErrs_sublist fs "lists")).append
            (reqFieldErrs_sublist fs "members")).append
            (reqFieldErrs_name_sublist fs)).append (nameTypeErrs_sublist fs)
      exact hsub.nodup (by decide)
    | str s => simp [validate_trello_data]
    | arr xs => simp [validate_trello_data]
    | other => simp [validate_trello_data]
  · rintro fs rfl
    rw [validate_dict_eq]
    simp only [validateErrors, List.length_append,
      reqFieldErrs_length fs "cards" rfl, reqFieldErrs_length fs "lists" rfl,
      reqFieldErrs_length fs "members" rfl, reqFieldErrs_name_length fs,
      nameTypeErrs_length fs, specViolationCount]
    cases h : jLookup fs "name" with
    | none => simp [h]; omega
    | some v => simp [h]; omega

def c9_good_fields : List (String × JVal) :=
  [ ("name", JVal.str "Board"), ("cards", JVal.arr [])
  , ("lists", JVal.arr []), ("members", JVal.arr []) ]

theorem c9_validate_amended_witness :
    ((validate_trello_data (JVal.dict c9_good_fields)).1 = true)
    ∧ (validate_trello_data (JVal.dict c9_good_fields)).2 = []
    ∧ (validate_trello_data (JVal.dict c9_bad_fields)).2.length
        = specViolationCount c9_bad_fields + 1 := by
  refine ⟨?_, ?_, ?_⟩
  · exact (c9_validate_amended (JVal.dict c9_good_fields)).1.mpr
      ⟨c9_good_fields, rfl, ⟨"Board", rfl⟩, ⟨[], rfl⟩, ⟨[], rfl⟩, ⟨[], rfl⟩⟩
  · exact (c9_validate_amended (JVal.dict c9_good_fields)).2.1 rfl
  · exact (c9_validate_amended (JVal.dict c9_bad_fields)).2.2.2 c9_bad_fields rfl

/-! ## C10 -/

/-- The group registry entry at index `i` (with an irrelevant default). -/
def grupoAt (i : Nat) : GrupoMarketing :=
  GRUPOS_MARKETING.getD i
    { name := "", responsaveis := [], etapas_abertura := []
    , etapas_finalizacao := [], etapa_feito := [], color := "" }

/-- C10: `group_summaries` always lists the four configured marketing
groups in registry order — a group with no matching rows getting an
all-zero summary — and carries a trailing `'Sem Grupo'` entry with empty
responsibles exactly when some input row has no group. -/
theorem c10_static_group_summaries (rows : List TaskReport) :
    ((generate_report_summary rows).group_summaries.map (·.grupo)
      = ["Grupo 1", "Grupo 2", "Grupo 3", "Grupo 4"]
        ++ (if rows.any hasNoGrupo then ["Sem Grupo"] else []))
    ∧ (∀ gs ∈ (generate_report_summary rows).group_summaries,
        gs.grupo = "Sem Grupo" → gs.responsaveis = [])
    ∧ (∀ g ∈ GRUPOS_MARKETING,
        rows.filter (fun t => t.grupo == some g.name) = [] →
        ∃ gs ∈ (generate_report_summary rows).group_summaries,
          gs.grupo = g.name ∧ gs.total_tasks = 0 ∧ gs.completed_tasks = 0
          ∧ gs.in_progress_tasks = 0 ∧ gs.late_tasks = 0 ∧ gs.blocked_tasks = 0
          ∧ gs.on_time_deliveries = 0 ∧ gs.late_deliveries = 0) := by
  refine ⟨?_, ?_, ?_⟩
  · simp only [generate_report_summary, List.map_append, List.map_map]
    congr 1
    by_cases hany : rows.any hasNoGrupo
    · have hne : rows.filter hasNoGrupo ≠ [] := by
        rw [ne_eq, List.filter_eq_nil_iff]
        simp only [List.any_eq_true] at hany
        obtain ⟨t, ht, hp⟩ := hany
        exact fun hall => hall t ht hp
      have hemp : (rows.filter hasNoGrupo).isEmpty = false := by
        cases hfe : rows.filter hasNoGrupo with
        | nil => exact absurd hfe hne
        | cons a b => rfl
      simp [hany, hemp, mkGroupCounts]
    · have hnil : rows.filter hasNoGrupo = [] := by
        rw [List.filter_eq_nil_iff]
        intro t ht hp
        exact hany (List.any_eq_true.2 ⟨t, ht, hp⟩)
      simp [hany, hnil]
  · intro gs hmem heq
    simp only [generate_report_summary] at hmem
    rcases List.mem_append.1 hmem with hmem | hmem
    · obtain ⟨g, hg, rfl⟩ := List.mem_map.1 hmem
      have : g.name ≠ "Sem Grupo" := by
        rcases (by simpa [GRUPOS_MARKETING] using hg :
          g = grupoAt 0 ∨ g = grupoAt 1 ∨ g = grupoAt 2 ∨ g = grupoAt 3) with
          rfl | rfl | rfl | rfl <;> decide
      exact absurd heq this
    · by_cases hemp : (rows.filter hasNoGrupo).isEmpty
      · rw [if_pos hemp] at hmem
        simp at hmem
      · rw [if_neg hemp] at hmem
        rcases List.mem_cons.1 hmem with rfl | hmem
        · rfl
        · simp at hmem
  · intro g hg hfilt
    refine ⟨mkGroupCounts g.name (g.responsaveis.map (·.nome))
        (rows.filter (fun t => t.grupo == some g.name)), ?_, rfl, ?_⟩
    · simp only [generate_report_summary]
      exact List.mem_append_left _ (List.mem_map.2 ⟨g, hg, rfl⟩)
    · rw [hfilt]
      simp [mkGroupCounts, dedupByKey, dedupByKeyAux, countStatus]

def c10_row : TaskReport :=
  { task_id := "t1", collaborator_name := "X", task_name := "N", list_name := "L"
  , due_date := "Não definida", created_at := none, completed_at := none
  , status := "Em Andamento", days_late := 0, observations := "", grupo := none
  , etapa_atual := none, finalizada_para_flavia := false, feita := false, em_revisao := false }

theorem c10_static_group_summaries_witness :
    ((generate_report_summary [c10_row]).group_summaries.map (·.grupo)
      = ["Grupo 1", "Grupo 2", "Grupo 3", "Grupo 4"]
        ++ (if [c10_row].any hasNoGrupo then ["Sem Grupo"] else []))
    ∧ (∃ gs ∈ (generate_report_summary [c10_row]).group_summaries,
        gs.grupo = (grupoAt 0).name ∧ gs.total_tasks = 0 ∧ gs.completed_tasks = 0
        ∧ gs.in_progress_tasks = 0 ∧ gs.late_tasks = 0 ∧ gs.blocked_tasks = 0
        ∧ gs.on_time_deliveries = 0 ∧ gs.late_deliveries = 0) :=
  ⟨(c10_static_group_summaries [c10_row]).1,
   (c10_static_group_summaries [c10_row]).2.2 (grupoAt 0) (by decide) (by decide)⟩

/-! ## C2 -/

/-- C2: `generate_report_summary` counts distinct task identifiers, never
raw rows: `total_tasks` is the number of distinct task ids among all rows,
and each marketing group's summary is computed over only that group's rows
after the same first-occurrence task-id deduplication. -/
theorem c2_unique_task_counting (rows : List TaskReport) :
    ((generate_report_summary rows).total_tasks = (rows.map (·.task_id)).toFinset.card)
    ∧ (∀ g ∈ GRUPOS_MARKETING,
        ∃ gs ∈ (generate_report_summary rows).group_summaries,
          gs.grupo = g.name
          ∧ gs.total_tasks
              = ((rows.filter (fun t => t.grupo == some g.name)).map (·.task_id)).toFinset.card
          ∧ gs.completed_tasks
              = countStatus (dedupByKey (·.task_id)
                  (rows.filter (fun t => t.grupo == some g.name))) "Concluída"
          ∧ gs.in_progress_tasks
              = countStatus (dedupByKey (·.task_id)
                  (rows.filter (fun t => t.grupo == some g.name))) "Em Andamento"
          ∧ gs.late_tasks
              = countStatus (dedupByKey (·.task_id)
                  (rows.filter (fun t => t.grupo == some g.name))) "Atrasada"
          ∧ gs.blocked_tasks
              = countStatus (dedupByKey (·.task_id)
                  (rows.filter (fun t => t.grupo == some g.name))) "Bloqueada") := by
  constructor
  · simpa only [generate_report_summary] using dedupByKey_length (·.task_id) rows
  · intro g hg
    refine ⟨mkGroupCounts g.name (g.responsaveis.map (·.nome))
        (rows.filter (fun t => t.grupo == some g.name)), ?_, rfl, ?_, rfl, rfl, rfl, rfl⟩
    · simp only [generate_report_summary]
      exact List.mem_append_left _ (List.mem_map.2 ⟨g, hg, rfl⟩)
    · simpa only [mkGroupCounts] using
        dedupByKey_length (·.task_id) (rows.filter (fun t => t.grupo == some g.name))

def c2_row (g : String) : TaskReport :=
  { task_id := "t1", collaborator_name := "X", task_name := "N", list_name := "L"
  , due_date := "Não definida", created_at := none, completed_at := none
  , status := "Em Andamento", days_late := 0, observations := "", grupo := some g
  , etapa_atual := none, finalizada_para_flavia := false, feita := false, em_revisao := false }

def c2_rows : List TaskReport := [c2_row "Grupo 1", c2_row "Grupo 2", c2_row "Grupo 3"]

theorem c2_unique_task_counting_witness :
    ((generate_report_summary c2_rows).total_tasks = 1)
    ∧ (∃ gs ∈ (generate_report_summary c2_rows).group_summaries,
        gs.grupo = (grupoAt 0).name ∧ gs.total_tasks = 1) := by
  have h := c2_unique_task_counting c2_rows
  refine ⟨h.1.trans (by decide), ?_⟩
  obtain ⟨gs, hmem, hname, htot, _⟩ := h.2 (grupoAt 0) (by decide)
  exact ⟨gs, hmem, hname, htot.trans (by decide)⟩

/-! ## C8 -/

theorem rowsForCard_list_name (lists : List TrelloList) (members : List Member)
    (today : Int) (c : Card) :
    ∀ r ∈ rowsForCard lists members today c, r.list_name = resolvedListName lists c := by
  intro r hr
  simp only [rowsForCard] at hr
  by_cases h : c.idMembers.isEmpty
  · rw [if_pos h] at hr
    rcases List.mem_singleton.1 hr with rfl
    rfl
  · rw [if_neg h] at hr
    rcases List.mem_append.1 hr with hr | hr
    · obtain ⟨nome, _, hrr⟩ := List.mem_flatMap.1 hr
      simp only [rowsForGroupName] at hrr
      cases hfind : GRUPOS_MARKETING.find? (fun grp => grp.name == nome) with
      | none => rw [hfind] at hrr; simp at hrr
      | some grupo =>
        rw [hfind] at hrr
        cases hh : (membersInGroup members c nome).head? with
        | none => rw [hh] at hrr; simp at hrr
        | some primeiro =>
          rw [hh] at hrr
          rcases List.mem_singleton.1 hrr with rfl
          rfl
    · obtain ⟨m, _, hrr⟩ := List.mem_map.1 hr
      rw [← hrr]
      rfl

def c8_card : Card :=
  { id := "c8", name := "Ghost", idList := none, idMembers := ["m1"]
  , due := none, dateLastActivity := some (.valid 10), closed := false, desc := "" }

def c8_data : TrelloData := { name := "B", cards := [c8_card], lists := [], members := [] }

/-- C8 counterexample: a card that survives the window filter but whose
only assigned member id is absent from the members array produces no
report row at all — the unknown member id is silently dropped, not
recovered with the `'Não atribuído'` fallback. -/
theorem c8_missing_member_counterexample :
    filter_cards_by_date_range c8_data.cards 0 100 c8_data.lists = [c8_card]
      ∧ generate_task_reports c8_data 0 100 50 = [] := ⟨rfl, rfl⟩

/-- C8 (amended): per-card row generation is total and never aborts the
batch; a card with no assigned members gets exactly one row with the
`'Não atribuído'` fallback, and an unresolvable list id falls back to
`'Lista não encontrada'` on every row of the card — but a filtered card
emits at least one row iff its member list is empty or at least one of
its member ids resolves; a card whose member ids are all unknown emits no
row. -/
theorem c8_lookup_fallbacks_amended (data : TrelloData) (s e today : Int) (c : Card)
    (hc : c ∈ filter_cards_by_date_range data.cards s e data.lists) :
    (c.idMembers = [] →
      ∃ r, rowsForCard data.lists data.members today c = [r]
        ∧ r.collaborator_name = "Não atribuído")
    ∧ (findList data.lists c = none →
        ∀ r ∈ rowsForCard data.lists data.members today c,
          r.list_name = "Lista não encontrada")
    ∧ (rowsForCard data.lists data.members today c ≠ []
        ↔ (c.idMembers = [] ∨ ∃ m ∈ data.members, m.id ∈ c.idMembers))
    ∧ (∀ r ∈ rowsForCard data.lists data.members today c,
        r ∈ generate_task_reports data s e today) := by
  refine ⟨?_, ?_, ?_, ?_⟩
  · intro h
    have hemp : c.idMembers.isEmpty = true := by simp [h]
    exact ⟨baseRow c (resolvedListName data.lists c) "Não atribuído"
        (get_task_status c data.lists data.members today) (calculate_days_late c today) none,
      by simp [rowsForCard, hemp], rfl⟩
  · intro hnone r hr
    rw [rowsForCard_list_name data.lists data.members today c r hr]
    simp [resolvedListName, hnone]
  · constructor
    · intro hne
      by_cases h : c.idMembers.isEmpty
      · exact Or.inl (by simpa [List.isEmpty_iff] using h)
      · refine Or.inr ?_
        obtain ⟨r, hr⟩ : ∃ r, r ∈ rowsForCard data.lists data.members today c := by
          cases h' : rowsForCard data.lists data.members today c with
          | nil => exact absurd h' hne
          | cons a b => exact ⟨a, by simp [h']⟩
        simp only [rowsForCard, if_neg h] at hr
        rcases List.mem_append.1 hr with hr | hr
        · obtain ⟨nome, _, hrr⟩ := List.mem_flatMap.1 hr
          simp only [rowsForGroupName] at hrr
          cases hfind : GRUPOS_MARKETING.find? (fun grp => grp.name == nome) with
          | none => rw [hfind] at hrr; simp at hrr
          | some grupo =>
            rw [hfind] at hrr
            cases hh : (membersInGroup data.members c nome).head? with
            | none => rw [hh] at hrr; simp at hrr
            | some primeiro =>
              have hpm : primeiro ∈ membersInGroup data.members c nome := by
                cases hlist : membersInGroup data.members c nome with
                | nil => rw [hlist] at hh; simp at hh
                | cons a b =>
                  rw [hlist] at hh
                  simp only [List.head?_cons, Option.some.injEq] at hh
                  rw [← hh]
                  exact List.mem_cons_self _ _
              have hcm := List.mem_filter.1 hpm
              have hcc := List.mem_filter.1 hcm.1
              exact ⟨primeiro, hcc.1, (contains_eq_true_iff_mem _ _).1 hcc.2⟩
        · obtain ⟨m, hm, _⟩ := List.mem_map.1 hr
          have hcc := List.mem_filter.1 (List.mem_filter.1 hm).1
          exact ⟨m, hcc.1, (contains_eq_true_iff_mem _ _).1 hcc.2⟩
    · rintro (h | ⟨m, hm, hid⟩)
      · have hemp : c.idMembers.isEmpty = true := by simp [h]
        simp [rowsForCard, hemp]
      · have hmc : m ∈ cardMembers data.members c :=
          List.mem_filter.2 ⟨hm, (contains_eq_true_iff_mem _ _).2 hid⟩
        have hne : c.idMembers.isEmpty = false := by
          cases hids : c.idMembers with
          | nil => rw [hids] at hid; simp at hid
          | cons a b => rfl
        suffices hex : ∃ r, r ∈ rowsForCard data.lists data.members today c by
          obtain ⟨r, hr⟩ := hex
          exact List.ne_nil_of_mem hr
        simp only [rowsForCard, hne, Bool.false_eq_true, if_false]
        cases hgm : memberGroupName m with
        | none =>
          have hsem : m ∈ (cardMembers data.members c).filter
              (fun x => (memberGroupName x).isNone) :=
            List.mem_filter.2 ⟨hmc, by simp [hgm]⟩
          exact ⟨rowForUngroupedMember data.lists today c (resolvedListName data.lists c) m,
            List.mem_append_right _ (List.mem_map.2 ⟨m, hsem, rfl⟩)⟩
        | some gname =>
          obtain ⟨grupo, hgr, hgrname⟩ :
              ∃ g, get_grupo_por_responsavel m.username = some g ∧ g.name = gname := by
            rcases Option.map_eq_some'.1 hgm with ⟨g, hg1, hg2⟩
            exact ⟨g, hg1, hg2⟩
          have hgmem : grupo ∈ GRUPOS_MARKETING := List.mem_of_find?_eq_some hgr
          have hdedup : gname ∈ dedupKeepFirst
              ((cardMembers data.members c).filterMap memberGroupName) :=
            (mem_dedupKeepFirst_iff _ _).2 (List.mem_filterMap.2 ⟨m, hmc, hgm⟩)
          obtain ⟨grp, hfind⟩ : ∃ grp,
              GRUPOS_MARKETING.find? (fun g => g.name == gname) = some grp := by
            rw [← Option.isSome_iff_exists]
            exact List.find?_isSome.2 ⟨grupo, hgmem, by simp [hgrname]⟩
          have hmg : m ∈ membersInGroup data.members c gname :=
            List.mem_filter.2 ⟨hmc, by simp [hgm]⟩
          obtain ⟨primeiro, hh⟩ :
              ∃ p, (membersInGroup data.members c gname).head? = some p := by
            cases hlist : membersInGroup data.members c gname with
            | nil => rw [hlist] at hmg; simp at hmg
            | cons a b => exact ⟨a, rfl⟩
          refine ⟨baseRow c (resolvedListName data.lists c)
              (String.intercalate ", " ((membersInGroup data.members c gname).map (·.fullName)))
              (get_task_status_for_collaborator c primeiro.username data.lists today)
              (calculate_days_late_for_collaborator c primeiro.username data.lists today)
              (some grp),
            List.mem_append_left _ (List.mem_flatMap.2 ⟨gname, hdedup, ?_⟩)⟩
          simp only [rowsForGroupName, hfind, hh]
          exact List.mem_singleton.2 rfl
  · intro r hr
    simp only [generate_task_reports]
    exact List.mem_flatMap.2 ⟨c, hc, hr⟩

def c8_card_solo : Card :=
  { id := "c9", name := "Solo", idList := none, idMembers := []
  , due := none, dateLastActivity := some (.valid 10), closed := false, desc := "" }

def c8_data_solo : TrelloData :=
  { name := "B", cards := [c8_card_solo], lists := [], members := [] }

theorem c8_lookup_fallbacks_amended_witness :
    (∃ r, rowsForCard c8_data_solo.lists c8_data_solo.members 50 c8_card_solo = [r]
      ∧ r.collaborator_name = "Não atribuído")
    ∧ (∀ r ∈ rowsForCard c8_data_solo.lists c8_data_solo.members 50 c8_card_solo,
        r.list_name = "Lista não encontrada") :=
  ⟨(c8_lookup_fallbacks_amended c8_data_solo 0 100 50 c8_card_solo (by decide)).1 rfl,
   (c8_lookup_fallbacks_amended c8_data_solo 0 100 50 c8_card_solo (by decide)).2.1 rfl⟩

/-! ## C1 -/

theorem rowsForGroupName_countP_ne (lists : List TrelloList) (members : List Member)
    (today : Int) (c : Card) (lname g nome : String) (hne : nome ≠ g) :
    (rowsForGroupName lists members today c lname nome).countP
      (fun r => r.grupo == some g) = 0 := by
  simp only [rowsForGroupName]
  cases hfind : GRUPOS_MARKETING.find? (fun grp => grp.name == nome) with
  | none => simp
  | some grupo =>
    cases hh : (membersInGroup members c nome).head? with
    | none => simp
    | some primeiro =>
      have hname : grupo.name = nome := by
        have := List.find?_some hfind
        simpa using this
      simp only [List.countP_cons, List.countP_nil, baseRow, Option.map_some']
      have : (some grupo.name == some g) = false := by
        simp [hname, hne]
      simp [this]

theorem rowsForGroupName_countP_self (lists : List TrelloList) (members : List Member)
    (today : Int) (c : Card) (lname g : String)
    (hgrp : ∃ gr ∈ GRUPOS_MARKETING, gr.name = g)
    (hmem : membersInGroup members c g ≠ []) :
    (rowsForGroupName lists members today c lname g).countP
      (fun r => r.grupo == some g) = 1 := by
  obtain ⟨gr, hgr, hgrname⟩ := hgrp
  obtain ⟨grp, hfind⟩ : ∃ grp, GRUPOS_MARKETING.find? (fun x => x.name == g) = some grp := by
    rw [← Option.isSome_iff_exists]
    exact List.find?_isSome.2 ⟨gr, hgr, by simp [hgrname]⟩
  obtain ⟨primeiro, hh⟩ : ∃ p, (membersInGroup members c g).head? = some p := by
    cases hlist : membersInGroup members c g with
    | nil => exact absurd hlist hmem
    | cons a b => exact ⟨a, rfl⟩
  have hname : grp.name = g := by
    have := List.find?_some hfind
    simpa using this
  simp only [rowsForGroupName, hfind, hh]
  simp [baseRow, hname]

theorem mem_rowsForGroupName (lists : List TrelloList) (members : List Member)
    (today : Int) (c : Card) (lname nome : String) (r : TaskReport)
    (hr : r ∈ rowsForGroupName lists members today c lname nome) :
    ∃ grp primeiro,
      GRUPOS_MARKETING.find? (fun x => x.name == nome) = some grp
      ∧ grp.name = nome
      ∧ (membersInGroup members c nome).head? = some primeiro
      ∧ r = baseRow c lname
          (String.intercalate ", " ((membersInGroup members c nome).map (·.fullName)))
          (get_task_status_for_collaborator c primeiro.username lists today)
          (calculate_days_late_for_collaborator c primeiro.username lists today)
          (some grp) := by
  simp only [rowsForGroupName] at hr
  cases hfind : GRUPOS_MARKETING.find? (fun grp => grp.name == nome) with
  | none => rw [hfind] at hr; simp at hr
  | some grupo =>
    rw [hfind] at hr
    cases hh : (membersInGroup members c nome).head? with
    | none => rw [hh] at hr; simp at hr
    | some primeiro =>
      rw [hh] at hr
      have hname : grupo.name = nome := by
        have := List.find?_some hfind
        simpa using this
      exact ⟨grupo, primeiro, rfl, hname, rfl, List.mem_singleton.1 hr⟩

/-- C1: for a filtered card with at least two assigned members in the
same marketing group, `generate_task_reports` emits exactly one row per
card carrying that group; the row's collaborator field is the
comma-joined display names of all the card's members in the group, and
the first such member's handle drives the viewer-specific status and
lateness. -/
theorem c1_one_row_per_group (data : TrelloData) (s e today : Int) (c : Card) (g : String)
    (hc : c ∈ filter_cards_by_date_range data.cards s e data.lists)
    (h2 : 2 ≤ (membersInGroup data.members c g).length) :
    ((rowsForCard data.lists data.members today c).countP
        (fun r => r.grupo == some g) = 1)
    ∧ (∀ r ∈ rowsForCard data.lists data.members today c, r.grupo = some g →
        ∃ m0, (membersInGroup data.members c g).head? = some m0
          ∧ r.collaborator_name
              = String.intercalate ", " ((membersInGroup data.members c g).map (·.fullName))
          ∧ r.status = get_task_status_for_collaborator c m0.username data.lists today
          ∧ r.days_late = calculate_days_late_for_collaborator c m0.username data.lists today)
    ∧ (∀ r ∈ rowsForCard data.lists data.members today c,
        r ∈ generate_task_reports data s e today) := by
  have hnil : membersInGroup data.members c g ≠ [] := by
    intro h
    rw [h] at h2
    simp at h2
  obtain ⟨m, hmg⟩ : ∃ m, m ∈ membersInGroup data.members c g := by
    cases hlist : membersInGroup data.members c g with
    | nil => exact absurd hlist hnil
    | cons a b => exact ⟨a, List.mem_cons_self _ _⟩
  have hmc : m ∈ cardMembers data.members c := (List.mem_filter.1 hmg).1
  have hgm : memberGroupName m = some g := by
    have := (List.mem_filter.1 hmg).2
    simpa using this
  obtain ⟨grupo, hgr, hgrname⟩ :
      ∃ grupo, get_grupo_por_responsavel m.username = some grupo ∧ grupo.name = g := by
    rcases Option.map_eq_some'.1 hgm with ⟨gg, hg1, hg2⟩
    exact ⟨gg, hg1, hg2⟩
  have hgmem : grupo ∈ GRUPOS_MARKETING := List.mem_of_find?_eq_some hgr
  have hgnames : g ∈ (cardMembers data.members c).filterMap memberGroupName :=
    List.mem_filterMap.2 ⟨m, hmc, hgm⟩
  have hemp : c.idMembers.isEmpty = false := by
    have hid := (contains_eq_true_iff_mem _ _).1 (List.mem_filter.1 hmc).2
    cases hids : c.idMembers with
    | nil => rw [hids] at hid; simp at hid
    | cons a b => rfl
  refine ⟨?_, ?_, ?_⟩
  · simp only [rowsForCard, hemp, Bool.false_eq_true, if_false]
    rw [List.countP_append, countP_flatMap]
    have hsem : (((cardMembers data.members c).filter
        (fun x => (memberGroupName x).isNone)).map
          (rowForUngroupedMember data.lists today c (resolvedListName data.lists c))).countP
        (fun r => r.grupo == some g) = 0 := by
      rw [List.countP_eq_zero]
      intro r hr
      obtain ⟨x, _, hrr⟩ := List.mem_map.1 hr
      rw [← hrr]
      simp [rowForUngroupedMember, baseRow]
    have hmapc : (dedupKeepFirst ((cardMembers data.members c).filterMap memberGroupName)).map
          (fun nome => (rowsForGroupName data.lists data.members today c
            (resolvedListName data.lists c) nome).countP (fun r => r.grupo == some g))
        = (dedupKeepFirst ((cardMembers data.members c).filterMap memberGroupName)).map
            (fun nome => if nome = g then 1 else 0) := by
      refine List.map_congr_left ?_
      intro nome _
      by_cases hng : nome = g
      · subst hng
        rw [if_pos rfl]
        exact rowsForGroupName_countP_self data.lists data.members today c
          (resolvedListName data.lists c) nome ⟨grupo, hgmem, hgrname⟩ hnil
      · rw [if_neg hng]
        exact rowsForGroupName_countP_ne data.lists data.members today c
          (resolvedListName data.lists c) g nome hng
    rw [hmapc, sum_map_indicator, count_dedupKeepFirst]
    simp [hgnames, hsem]
  · intro r hr hgrupo
    simp only [rowsForCard, hemp, Bool.false_eq_true, if_false] at hr
    rcases List.mem_append.1 hr with hr | hr
    · obtain ⟨nome, _, hrr⟩ := List.mem_flatMap.1 hr
      obtain ⟨grp, primeiro, hfind, hname, hh, hreq⟩ :=
        mem_rowsForGroupName data.lists data.members today c
          (resolvedListName data.lists c) nome r hrr
      have hng : nome = g := by
        rw [hreq] at hgrupo
        simp only [baseRow, Option.map_some', Option.some.injEq] at hgrupo
        rw [← hname, hgrupo]
      subst hng
      exact ⟨primeiro, hh, by rw [hreq]; rfl, by rw [hreq]; rfl, by rw [hreq]; rfl⟩
    · obtain ⟨x, _, hrr⟩ := List.mem_map.1 hr
      rw [← hrr] at hgrupo
      simp [rowForUngroupedMember, baseRow] at hgrupo
  · intro r hr
    simp only [generate_task_reports]
    exact List.mem_flatMap.2 ⟨c, hc, hr⟩

def c1_member1 : Member :=
  { id := "m1", username := "jamillyfreitass", fullName := "Jamily Freitas" }

def c1_member2 : Member :=
  { id := "m2", username := "leonardoferreiracardoso5", fullName := "Leo Cardoso" }

def c1_card : Card :=
  { id := "cc1", name := "Post", idList := some "L3", idMembers := ["m1", "m2"]
  , due := none, dateLastActivity := some (.valid 10), closed := false, desc := "" }

def c1_data : TrelloData :=
  { name := "B", cards := [c1_card], lists := [c5_list], members := [c1_member1, c1_member2] }

theorem c1_one_row_per_group_witness :
    ((rowsForCard c1_data.lists c1_data.members 50 c1_card).countP
        (fun r => r.grupo == some "Grupo 1") = 1)
    ∧ (∀ r ∈ rowsForCard c1_data.lists c1_data.members 50 c1_card, r.grupo = some "Grupo 1" →
        ∃ m0, (membersInGroup c1_data.members c1_card "Grupo 1").head? = some m0
          ∧ r.collaborator_name
              = String.intercalate ", "
                  ((membersInGroup c1_data.members c1_card "Grupo 1").map (·.fullName))
          ∧ r.status = get_task_status_for_collaborator c1_card m0.username c1_data.lists 50
          ∧ r.days_late
              = calculate_days_late_for_collaborator c1_card m0.username c1_data.lists 50)
    ∧ (∀ r ∈ rowsForCard c1_data.lists c1_data.members 50 c1_card,
        r ∈ generate_task_reports c1_data 0 100 50) :=
  c1_one_row_per_group c1_data 0 100 50 c1_card "Grupo 1" (by decide) (by decide)

/-! ## C7 -/

/-- The task copies one row contributes to the collaborator `k`: per-person
copies of a comma-joined row, or the row itself when it is `k`'s own. -/
def personCopies (t : TaskReport) (k : String) : List TaskReport :=
  if strContains t.collaborator_name "," then
    ((splitStrip t.collaborator_name).filter (fun nome => nome == k)).map (copyWith t)
  else if t.collaborator_name == k then [t] else []

/-- All copies assigned to collaborator `k` by the expansion loop. -/
def expandedFor (task_reports : List TaskReport) (k : String) : List TaskReport :=
  task_reports.flatMap (fun t => personCopies t k)

/-- Lookup of the first entry for key `k` in the collaborator map. -/
def entryTasks : List (String × List TaskReport) → String → List TaskReport
  | [], _ => []
  | (key, v) :: ps, k => if key == k then v else entryTasks ps k

theorem entryTasks_mapAppend (k' : String) (x : TaskReport) :
    ∀ (m : List (String × List TaskReport)) (k : String),
      entryTasks (m.map (fun p => if p.1 == k' then (p.1, p.2 ++ [x]) else p)) k
        = entryTasks m k
          ++ (if k = k' ∧ m.any (fun p => p.1 == k) = true then [x] else []) := by
  intro m
  induction m with
  | nil => intro k; simp [entryTasks]
  | cons p ps ih =>
    obtain ⟨pk, pv⟩ := p
    intro k
    simp only [List.map_cons, List.any_cons]
    by_cases hpk' : (pk == k') = true
    · rw [if_pos hpk']
      by_cases hpk : (pk == k) = true
      · have h1 : pk = k' := by simpa using hpk'
        have h2 : pk = k := by simpa using hpk
        have hkk : k = k' := by rw [← h2, h1]
        have hcond : k = k' ∧ (pk == k || ps.any fun p => p.1 == k) = true :=
          ⟨hkk, by simp [hpk]⟩
        simp only [entryTasks]
        rw [if_pos hpk, if_pos hpk, if_pos hcond]
      · have hkk : ¬ (k = k') := fun hcon => hpk (by rw [hcon]; exact hpk')
        simp only [entryTasks]
        rw [if_neg hpk, if_neg hpk, ih k]
        simp [hkk]
    · rw [if_neg hpk']
      by_cases hpk : (pk == k) = true
      · have h2 : pk = k := by simpa using hpk
        have hkk : ¬ (k = k') := fun hcon => hpk' (by simp [h2, hcon])
        simp only [entryTasks]
        rw [if_pos hpk, if_pos hpk]
        simp [hkk]
      · have hf : (pk == k) = false := by
          cases hx : (pk == k) with
          | false => rfl
          | true => exact absurd hx hpk
        simp only [entryTasks]
        rw [if_neg hpk, if_neg hpk, ih k]
        simp only [hf, Bool.false_or]

theorem entryTasks_appendNew (k' : String) (x : TaskReport) :
    ∀ (m : List (String × List TaskReport)) (k : String),
      m.any (fun p => p.1 == k') = false →
      entryTasks (m ++ [(k', [x])]) k
        = entryTasks m k ++ (if k = k' then [x] else []) := by
  intro m
  induction m with
  | nil =>
    intro k _
    simp only [List.nil_append, entryTasks]
    by_cases hk : (k' == k) = true
    · have hkk : k = k' := by
        have h := (beq_iff_eq).1 hk
        rw [h]
      rw [if_pos hk, if_pos hkk]
    · have hkk : ¬ (k = k') := fun hcon => hk (by simp [hcon])
      rw [if_neg hk, if_neg hkk]
  | cons p ps ih =>
    obtain ⟨pk, pv⟩ := p
    intro k hnot
    have h1 : (pk == k') = false := by
      simp only [List.any_cons, Bool.or_eq_false_iff] at hnot
      exact hnot.1
    have hnot2 : ps.any (fun p => p.1 == k') = false := by
      simp only [List.any_cons, Bool.or_eq_false_iff] at hnot
      exact hnot.2
    simp only [List.cons_append, entryTasks]
    by_cases hpk : (pk == k) = true
    · have h2 : pk = k := by simpa using hpk
      have hkk : ¬ (k = k') := by
        intro hcon
        have hx : (pk == k') = true := by simp [h2, hcon]
        rw [hx] at h1
        exact Bool.noConfusion h1
      rw [if_pos hpk, if_pos hpk]
      simp [hkk]
    · rw [if_neg hpk, if_neg hpk]
      have hih := ih k hnot2
      rw [show ps.append [(k', [x])] = ps ++ [(k', [x])] from rfl]
      exact hih

theorem entryTasks_upsert (m : List (String × List TaskReport)) (k' : String)
    (x : TaskReport) (k : String) :
    entryTasks (upsert m k' x) k = entryTasks m k ++ (if k = k' then [x] else []) := by
  unfold upsert
  by_cases hany : m.any (fun p => p.1 == k') = true
  · rw [if_pos hany, entryTasks_mapAppend]
    by_cases hkk : k = k'
    · subst hkk
      simp [hany]
    · simp [hkk]
  · rw [if_neg hany]
    have hf : m.any (fun p => p.1 == k') = false := by
      cases hx : m.any (fun p => p.1 == k') with
      | false => rfl
      | true => exact absurd hx hany
    exact entryTasks_appendNew k' x m k hf

theorem entryTasks_collabStep (m : List (String × List TaskReport)) (t : TaskReport)
    (k : String) :
    entryTasks (collabStep m t) k = entryTasks m k ++ personCopies t k := by
  unfold collabStep personCopies
  by_cases hcomma : strContains t.collaborator_name "," = true
  · rw [if_pos hcomma, if_pos hcomma]
    generalize splitStrip t.collaborator_name = nomes
    induction nomes generalizing m with
    | nil => simp
    | cons nome rest ih =>
      simp only [List.foldl_cons, List.filter_cons]
      rw [ih (upsert m nome (copyWith t nome)), entryTasks_upsert]
      by_cases hn : (nome == k) = true
      · have hkn : k = nome := by
          have := (beq_iff_eq).1 hn
          rw [this]
        simp [hn, hkn, List.append_assoc]
      · have hkn : ¬ (k = nome) := fun hcon => hn (by simp [hcon])
        simp [hn, hkn]
  · rw [if_neg hcomma, if_neg hcomma]
    rw [entryTasks_upsert]
    by_cases ht : (t.collaborator_name == k) = true
    · have hkt : k = t.collaborator_name := by
        have := (beq_iff_eq).1 ht
        rw [this]
      simp [ht, hkt]
    · have hkt : ¬ (k = t.collaborator_name) := fun hcon => ht (by simp [hcon])
      simp [ht, hkt]

theorem entryTasks_foldl (k : String) :
    ∀ (task_reports : List TaskReport) (m : List (String × List TaskReport)),
      entryTasks (task_reports.foldl collabStep m) k
        = entryTasks m k ++ expandedFor task_reports k := by
  intro task_reports
  induction task_reports with
  | nil => intro m; simp [expandedFor]
  | cons t ts ih =>
    intro m
    simp only [List.foldl_cons]
    rw [ih (collabStep m t), entryTasks_collabStep]
    simp [expandedFor, List.flatMap_cons, List.append_assoc]

theorem entryTasks_collabMap (task_reports : List TaskReport) (k : String) :
    entryTasks (collabMap task_reports) k = expandedFor task_reports k := by
  have h := entryTasks_foldl k task_reports []
  simpa [collabMap, entryTasks] using h

def mapKeys (m : List (String × List TaskReport)) : List String := m.map (·.1)

theorem upsert_keys (m : List (String × List TaskReport)) (k : String) (t : TaskReport) :
    mapKeys (upsert m k t)
      = if m.any (fun p => p.1 == k) = true then mapKeys m else mapKeys m ++ [k] := by
  unfold upsert mapKeys
  by_cases h : m.any (fun p => p.1 == k) = true
  · rw [if_pos h, if_pos h, List.map_map]
    refine List.map_congr_left ?_
    intro p _
    by_cases hp : p.1 = k <;> simp [hp]
  · rw [if_neg h, if_neg h, List.map_append]
    rfl

theorem upsert_keys_nodup (m : List (String × List TaskReport)) (k : String) (t : TaskReport)
    (h : (mapKeys m).Nodup) : (mapKeys (upsert m k t)).Nodup := by
  rw [upsert_keys]
  by_cases hany : m.any (fun p => p.1 == k) = true
  · rw [if_pos hany]; exact h
  · rw [if_neg hany]
    rw [List.nodup_append]
    refine ⟨h, List.nodup_singleton k, ?_⟩
    intro a ha hb
    have ha' : a = k := by simpa using hb
    subst ha'
    obtain ⟨p, hp, hp1⟩ := List.mem_map.1 ha
    exact hany (List.any_eq_true.2 ⟨p, hp, by simp [hp1]⟩)

theorem collabStep_keys_nodup (m : List (String × List TaskReport)) (t : TaskReport)
    (h : (mapKeys m).Nodup) : (mapKeys (collabStep m t)).Nodup := by
  unfold collabStep
  by_cases hcomma : strContains t.collaborator_name "," = true
  · rw [if_pos hcomma]
    generalize splitStrip t.collaborator_name = nomes
    induction nomes generalizing m with
    | nil => exact h
    | cons nome rest ih =>
      simp only [List.foldl_cons]
      exact ih (upsert m nome (copyWith t nome)) (upsert_keys_nodup m nome _ h)
  · rw [if_neg hcomma]
    exact upsert_keys_nodup m t.collaborator_name t h

theorem collabMap_keys_nodup (task_reports : List TaskReport) :
    (mapKeys (collabMap task_reports)).Nodup := by
  have aux : ∀ (ts : List TaskReport) (m : List (String × List TaskReport)),
      (mapKeys m).Nodup → (mapKeys (ts.foldl collabStep m)).Nodup := by
    intro ts
    induction ts with
    | nil => intro m h; exact h
    | cons t ts ih =>
      intro m h
      simp only [List.foldl_cons]
      exact ih (collabStep m t) (collabStep_keys_nodup m t h)
  exact aux task_reports [] (by simp [mapKeys])

theorem entryTasks_of_mem (m : List (String × List TaskReport)) (k : String)
    (v : List TaskReport) (h : (mapKeys m).Nodup) (hmem : (k, v) ∈ m) :
    entryTasks m k = v := by
  induction m with
  | nil => simp at hmem
  | cons p ps ih =>
    have h' : (p.1 :: mapKeys ps).Nodup := by simpa [mapKeys] using h
    rcases List.mem_cons.1 hmem with rfl | hmem
    · simp [entryTasks]
    · have hkps : k ∈ mapKeys ps := List.mem_map.2 ⟨(k, v), hmem, rfl⟩
      have hne : (p.1 == k) = false := by
        by_contra hcon
        have : (p.1 == k) = true := by
          cases hx : (p.1 == k) with
          | false => exact absurd hx hcon
          | true => rfl
        have hp1 : p.1 = k := by simpa using this
        exact (List.nodup_cons.1 h').1 (hp1 ▸ hkps)
      simp only [entryTasks, hne, Bool.false_eq_true, if_false]
      exact ih (by simpa [mapKeys] using (List.nodup_cons.1 h').2) hmem

/-- C7 (amended): `generate_collaborator_reports` expands comma-joined
rows into per-person copies (all other fields preserved), groups them by
person, and deduplicates each person's copies by the concatenated string
key `task_name ++ "-" ++ (grupo or "no-group")`: a person's unique-task
count is the number of distinct such keys among their copies, every
reported task is one of the person's copies, and every copy's key is
represented — so copies collapse exactly when the concatenated keys
coincide, not by task identifier. -/
theorem c7_collab_dedup_amended (task_reports : List TaskReport) (rep : CollaboratorReport)
    (hrep : rep ∈ generate_collaborator_reports task_reports) :
    (rep.total_tasks
      = ((expandedFor task_reports rep.collaborator_name).map collabKey).toFinset.card)
    ∧ (∀ t ∈ rep.tasks, t ∈ expandedFor task_reports rep.collaborator_name)
    ∧ (∀ cpy ∈ expandedFor task_reports rep.collaborator_name,
        ∃ t ∈ rep.tasks, collabKey t = collabKey cpy) := by
  have hmem : rep ∈ (collabMap task_reports).map
      (fun entry => mkCollaboratorReport entry.1 entry.2) :=
    (stableSortLe_perm reportSortGe _).mem_iff.1
      (by simpa [generate_collaborator_reports] using hrep)
  obtain ⟨entry, hent, hrepeq⟩ := List.mem_map.1 hmem
  obtain ⟨k, tasks⟩ := entry
  have htasks : entryTasks (collabMap task_reports) k = tasks :=
    entryTasks_of_mem _ _ _ (collabMap_keys_nodup task_reports) hent
  have hexp : tasks = expandedFor task_reports k := by
    rw [← htasks, entryTasks_collabMap]
  subst hrepeq
  refine ⟨?_, ?_, ?_⟩
  · have h1 : (mkCollaboratorReport k tasks).total_tasks
        = (dedupByKey collabKey tasks).length := rfl
    have h2 : (mkCollaboratorReport k tasks).collaborator_name = k := rfl
    rw [h1, dedupByKey_length, h2, hexp]
  · intro t ht
    have hperm := stableSortLe_perm taskSortLe (dedupByKey collabKey tasks)
    have ht' : t ∈ dedupByKey collabKey tasks :=
      hperm.mem_iff.1 (by simpa [mkCollaboratorReport] using ht)
    have htt : t ∈ tasks := mem_of_mem_dedupByKeyAux collabKey tasks [] t ht'
    rw [hexp] at htt
    exact htt
  · intro cpy hcpy
    have hcpy' : cpy ∈ tasks := by
      rw [hexp]
      exact hcpy
    obtain ⟨t, htd, hkey⟩ := dedupByKeyAux_key_surj collabKey tasks [] cpy hcpy' (by simp)
    have hperm := stableSortLe_perm taskSortLe (dedupByKey collabKey tasks)
    exact ⟨t, by simpa [mkCollaboratorReport] using hperm.mem_iff.2 htd, hkey⟩

def c7_row_a : TaskReport :=
  { task_id := "a1", collaborator_name := "P", task_name := "T-G", list_name := "L"
  , due_date := "Não definida", created_at := none, completed_at := none
  , status := "Em Andamento", days_late := 0, observations := "", grupo := none
  , etapa_atual := none, finalizada_para_flavia := false, feita := false, em_revisao := false }

def c7_row_b : TaskReport :=
  { c7_row_a with task_id := "b2", task_name := "T", grupo := some "G-no-group" }

/-- C7 counterexample: two rows for the same person that agree on neither
task name nor group (and have different task identifiers) are still
collapsed into a single unique task, because their concatenated dedup keys
`"T-G" ++ "-" ++ "no-group"` and `"T" ++ "-" ++ "G-no-group"` coincide —
so the collapse is not "iff they agree on (task name, group)". -/
theorem c7_collab_dedup_counterexample :
    ((generate_collaborator_reports [c7_row_a, c7_row_b]).map
        (fun r => (r.collaborator_name, r.total_tasks)) = [("P", 1)])
    ∧ ¬(c7_row_a.task_name = c7_row_b.task_name ∧ c7_row_a.grupo = c7_row_b.grupo)
    ∧ c7_row_a.task_id ≠ c7_row_b.task_id :=
  ⟨rfl, by decide, by decide⟩

def c7_row_w : TaskReport :=
  { c7_row_a with collaborator_name := "Alice", task_name := "W" }

def c7_rep_w : CollaboratorReport := mkCollaboratorReport "Alice" [c7_row_w]

theorem c7_collab_dedup_amended_witness :
    (c7_rep_w.total_tasks
      = ((expandedFor [c7_row_w] c7_rep_w.collaborator_name).map collabKey).toFinset.card)
    ∧ (∀ t ∈ c7_rep_w.tasks, t ∈ expandedFor [c7_row_w] c7_rep_w.collaborator_name)
    ∧ (∀ cpy ∈ expandedFor [c7_row_w] c7_rep_w.collaborator_name,
        ∃ t ∈ c7_rep_w.tasks, collabKey t = collabKey cpy) :=
  c7_collab_dedup_amended [c7_row_w] c7_rep_w (by decide)
